import Mathlib

/-!
A shallow embedding of Flowblade's edit-action / undo-redo engine
(`flowblade-trunk/Flowblade/edit.py`, Python 2).

A track's segment sequence is modelled as a `List Clip`; the Python-side
list `track.clips` and the media engine's mirrored structure are updated in
lock-step by the atomic operations, which is captured separately by the
`MirroredTrack` model below.  Frames and clip bounds are `Int` (Python
integers); list indices are `Nat` — every embedded code path below reaches
the list primitives only with non-negative indices, which we note where the
source relies on it.  Python exceptions (`IndexError` from `list.pop`,
`TypeError` from a wrong-arity call, `AttributeError` from reading a missing
attribute) are modelled with `Except PyErr`.
-/

/-- Python runtime errors raised by the embedded code. -/
inductive PyErr where
  | indexError
  | typeError
  | attributeError
deriving DecidableEq, Repr

deriving instance DecidableEq for Except

/-- `SyncData` (edit.py:246-256).  Only `pos_offset` is read by the code
under study (`_create_and_do_sync_actions_list`); the master-clip reference
fields are omitted. -/
structure SyncData where
  pos_offset : Int
deriving DecidableEq, Repr

/-- A timeline segment: a media clip or a blank (gap).  `clip_in`/`clip_out`
are the inclusive source bounds; `is_blanck_clip` is the Python-side blank
flag (sic, source spelling); `media` stands for the clip's source reference
(`path`/`name`/`create_data`); `filters` is the attached-filter list and
`sync_data` the optional sync binding. -/
structure Clip where
  clip_in : Int
  clip_out : Int
  is_blanck_clip : Bool
  media : Nat
  filters : List Nat
  sync_data : Option SyncData
deriving DecidableEq, Repr

/-- `_clip_length` (edit.py:142-143): `clip_out - clip_in + 1`, out inclusive. -/
def _clip_length (c : Clip) : Int :=
  c.clip_out - c.clip_in + 1

/-- The blank clip built by `_insert_blank` (edit.py:75-82): `clip_in = 0`,
`clip_out = length - 1`, `is_blanck_clip = True`; a fresh engine-side blank
carries no media, filters or sync data. -/
def mkBlank (length : Int) : Clip :=
  { clip_in := 0, clip_out := length - 1, is_blanck_clip := true,
    media := 0, filters := [], sync_data := none }

/-- Python `list.insert` semantics: a past-the-end index appends (Python
clamps the insertion index to the list length). -/
def insertAt {α : Type} : List α → Nat → α → List α
  | l, 0, x => x :: l
  | [], _ + 1, x => [x]
  | a :: l, n + 1, x => a :: insertAt l n x

/-- Python `list.pop(index)` semantics for a non-negative index: returns the
remaining list and the removed element, raising `IndexError` when the index
is out of range. -/
def pop {α : Type} : List α → Nat → Except PyErr (List α × α)
  | [], _ => .error .indexError
  | a :: l, 0 => .ok (l, a)
  | a :: l, n + 1 => do
      let (t, c) ← pop l n
      .ok (a :: t, c)

/-- Python `list[index]` read for a non-negative index. -/
def getAt {α : Type} : List α → Nat → Except PyErr α
  | [], _ => .error .indexError
  | a :: _, 0 => .ok a
  | _ :: l, n + 1 => getAt l n

-- ---------------------------------- atomic edit ops

/-- `append_clip` (edit.py:55-63): sets the clip's bounds and appends it to
both the Python list and the engine track. -/
def append_clip (t : List Clip) (clip : Clip) (clip_in clip_out : Int) :
    List Clip × Clip :=
  let c := { clip with clip_in := clip_in, clip_out := clip_out }
  (t ++ [c], c)

/-- `_insert_clip` (edit.py:65-73): sets the clip's bounds and inserts it at
`index` in both representations.  The returned `Clip` is the mutated clip
object (the caller's alias observes the new bounds). -/
def _insert_clip (t : List Clip) (clip : Clip) (index : Nat)
    (clip_in clip_out : Int) : List Clip × Clip :=
  let c := { clip with clip_in := clip_in, clip_out := clip_out }
  (insertAt t index c, c)

/-- `_insert_blank` (edit.py:75-82): inserts a fresh engine blank of the
given length at `index` (the engine call takes `length - 1`; the Python-side
blank gets `clip_in = 0`, `clip_out = length - 1`). -/
def _insert_blank (t : List Clip) (index : Nat) (length : Int) : List Clip :=
  insertAt t index (mkBlank length)

/-- `_remove_clip` (edit.py:84-93): removes and returns the clip at `index`
from both representations (`IndexError` when out of range). -/
def _remove_clip (t : List Clip) (index : Nat) :
    Except PyErr (List Clip × Clip) :=
  pop t index

-- --------------------------------- loops over atomics

/-- The removal loop pattern `for i in range(a, b): _remove_clip(track, a)`
(fixed index, shrinking list) used by remove-multiple, lift-multiple,
insert-move and overwrite-move; collects the removed clips in order. -/
def _remove_clip_loop (t : List Clip) (index : Nat) :
    Nat → Except PyErr (List Clip × List Clip)
  | 0 => .ok (t, [])
  | k + 1 => do
      let (t1, c) ← _remove_clip t index
      let (t2, cs) ← _remove_clip_loop t1 index k
      .ok (t2, c :: cs)

/-- The insertion loop pattern
`for i in range(0, n): _insert_clip(track, clips[i], index + i, clips[i].clip_in, clips[i].clip_out)`
used by the undo functions to put saved clips back at consecutive indices.
Re-inserting a clip with its own bounds leaves the clip value unchanged. -/
def _insert_clip_loop (t : List Clip) (index : Nat) : List Clip → List Clip
  | [] => t
  | c :: cs =>
      let (t1, _) := _insert_clip t c index c.clip_in c.clip_out
      _insert_clip_loop t1 (index + 1) cs

/-- The blank re-insertion loop
`for i in range(0, len(lengths)): _insert_blank(track, index + i, lengths[i])`
used by the blank-restoring undo functions. -/
def _insert_blank_loop (t : List Clip) (index : Nat) : List Int → List Clip
  | [] => t
  | len :: rest => _insert_blank_loop (_insert_blank t index len) (index + 1) rest

-- --------------------------------- util methods

/-- `_frame_on_cut` (edit.py:145-151): the clip-relative frame sits on the
clip's in boundary or one past its (inclusive) out boundary. -/
def _frame_on_cut (clip : Clip) (clip_frame : Int) : Bool :=
  clip_frame == clip.clip_in || clip_frame == clip.clip_out + 1

/-- `_remove_trailing_blanks` (edit.py:153-160): repeatedly removes the last
segment while it is a blank; the `try/except` makes this a no-op on an empty
track. -/
def _remove_trailing_blanks (t : List Clip) : List Clip :=
  (t.reverse.dropWhile (fun c => c.is_blanck_clip)).reverse

/-- `_create_clip_clone` (edit.py:162-168): a fresh producer for the same
media (no filters, no sync data); its bounds are set by the following
`_insert_clip` before they are ever read. -/
def _create_clip_clone (clip : Clip) : Clip :=
  { clip_in := 0, clip_out := 0, is_blanck_clip := false,
    media := clip.media, filters := [], sync_data := none }

/-- `_remove_consecutive_blanks` (edit.py:184-191):
`while track.clips[index].is_blanck_clip: lengths.append(...); _remove_clip(track, index)`.
The loop body works on the suffix starting at `index`; reading
`track.clips[index]` raises `IndexError` once the suffix is exhausted
(the source's own comment: WHAT IF TRACK ENDS WITH BLANKS??). -/
def _remove_consecutive_blanks_aux :
    List Clip → Except PyErr (List Int × List Clip)
  | [] => .error .indexError
  | c :: rest =>
      if c.is_blanck_clip then do
        let (ls, r) ← _remove_consecutive_blanks_aux rest
        .ok (_clip_length c :: ls, r)
      else
        .ok ([], c :: rest)

/-- `_remove_consecutive_blanks` (edit.py:184-191) on the whole track:
the prefix before `index` is untouched. -/
def _remove_consecutive_blanks (t : List Clip) (index : Nat) :
    Except PyErr (List Int × List Clip) := do
  let (ls, r) ← _remove_consecutive_blanks_aux (t.drop index)
  .ok (ls, t.take index ++ r)

-- --------------------------------- engine-side track queries

/-- Modelled from the spec (§6 external interfaces): the engine's
`track.get_length()` — the total length of the mirrored segment list. -/
def get_length (t : List Clip) : Int :=
  (t.map _clip_length).sum

/-- Modelled from the spec (§6 external interfaces): the engine's
`track.clip_start(index)` — the timeline frame at which the segment at
`index` starts, i.e. the sum of the lengths of the preceding segments. -/
def clip_start (t : List Clip) (index : Nat) : Int :=
  ((t.take index).map _clip_length).sum

/-- Modelled from the spec (§6 external interfaces): the engine's
`track.get_clip_index_at(frame)` — the index of the segment whose
half-open timeline range contains `frame`; past-the-end frames yield the
segment count. -/
def get_clip_index_at : List Clip → Int → Nat
  | [], _ => 0
  | c :: rest, frame =>
      if frame < _clip_length c then 0
      else get_clip_index_at rest (frame - _clip_length c) + 1

-- -------------------------------- combined edit ops

/-- `_cut` (edit.py:96-103): removes the clip and re-inserts it truncated to
`[clip_in, cut_frame - 1]` together with the copy covering
`[cut_frame, second_out]`.  Returns the track and both mutated clip objects
(the caller's aliases observe the new bounds). -/
def _cut (t : List Clip) (index : Nat) (clip_cut_frame : Int)
    (clip clip_copy : Clip) : Except PyErr (List Clip × Clip × Clip) := do
  let (t1, _) ← _remove_clip t index
  let second_out := clip.clip_out
  let (t2, c1) := _insert_clip t1 clip index clip.clip_in (clip_cut_frame - 1)
  let (t3, c2) := _insert_clip t2 clip_copy (index + 1) clip_cut_frame second_out
  .ok (t3, c1, c2)

/-- `_cut_blank` (edit.py:105-118): replaces the blank at `index` with two
fresh blanks of lengths `cut_frame` and `clip_out - cut_frame + 1` (the
engine blanks are inserted first, then mirrored on the Python side by
`_add_blank_to_py`). -/
def _cut_blank (t : List Clip) (index : Nat) (clip_cut_frame : Int)
    (clip : Clip) : Except PyErr (List Clip) := do
  let (t1, _) ← _remove_clip t index
  let clip_one_length := clip_cut_frame
  let clip_two_length := clip.clip_out - clip_cut_frame + 1
  let t2 := _insert_blank t1 index clip_one_length
  let t3 := _insert_blank t2 (index + 1) clip_two_length
  .ok t3

/-- `_overwrite_cut_track` (edit.py:724-748): no-op returning `(-1, -1)`
when `frame` is on an existing cut, otherwise splits the segment containing
`frame` and returns that segment's pre-split `(clip_in, clip_out)`. -/
def _overwrite_cut_track (t : List Clip) (frame : Int) :
    Except PyErr (List Clip × Int × Int) := do
  let index := get_clip_index_at t frame
  let clip ← getAt t index
  let orig_in_out := (clip.clip_in, clip.clip_out)
  let clip_start_in_tline := clip_start t index
  let clip_frame := frame - clip_start_in_tline + clip.clip_in
  if !_frame_on_cut clip clip_frame then
    if clip.is_blanck_clip then do
      let t2 ← _cut_blank t index clip_frame clip
      .ok (t2, orig_in_out)
    else do
      let (t2, _, _) ← _cut t index clip_frame clip (_create_clip_clone clip)
      .ok (t2, orig_in_out)
  else
    .ok (t, (-1, -1))

-- -------------------- APPEND CLIP (edit.py:258-270)

structure AppendData where
  clip : Clip
  clip_in : Int
  clip_out : Int
deriving DecidableEq, Repr

/-- `_append_undo` (edit.py:265-266): removes the clip at
`len(track.clips) - 1` (on an empty track Python's `pop(-1)` raises
`IndexError`, as does `pop [] 0` here). -/
def _append_undo (d : AppendData) (t : List Clip) :
    Except PyErr (AppendData × List Clip) := do
  let (t1, c) ← _remove_clip t (t.length - 1)
  .ok ({ d with clip := c }, t1)

/-- `_append_redo` (edit.py:268-270); the transient `self.clip.index`
attribute set before appending is never read back and is not modelled. -/
def _append_redo (d : AppendData) (t : List Clip) : AppendData × List Clip :=
  let (t1, c) := append_clip t d.clip d.clip_in d.clip_out
  ({ d with clip := c }, t1)

-- ----------------- REMOVE MULTIPLE CLIPS (edit.py:273-291)

structure RemoveMultipleData where
  from_index : Nat
  to_index : Nat
  clips : List Clip := []
deriving DecidableEq, Repr

/-- `_remove_multiple_undo` (edit.py:279-285): re-inserts
`self.clips[i]` at `from_index + i` for `i < to_index + 1 - from_index`
(indexing past the saved list would raise `IndexError`). -/
def _remove_multiple_undo (d : RemoveMultipleData) (t : List Clip) :
    Except PyErr (RemoveMultipleData × List Clip) :=
  let clips_count := d.to_index + 1 - d.from_index
  if clips_count ≤ d.clips.length then
    .ok (d, _insert_clip_loop t d.from_index (d.clips.take clips_count))
  else
    .error .indexError

/-- `_remove_multiple_redo` (edit.py:287-291). -/
def _remove_multiple_redo (d : RemoveMultipleData) (t : List Clip) :
    Except PyErr (RemoveMultipleData × List Clip) := do
  let (t1, cs) ← _remove_clip_loop t d.from_index (d.to_index + 1 - d.from_index)
  .ok ({ d with clips := cs }, t1)

-- ----------------- LIFT MULTIPLE CLIPS (edit.py:294-323)

structure LiftMultipleData where
  from_index : Nat
  to_index : Nat
  clips : List Clip := []
deriving DecidableEq, Repr

/-- `_lift_multiple_undo` (edit.py:301-311): removes the blank and
re-inserts the saved clips. -/
def _lift_multiple_undo (d : LiftMultipleData) (t : List Clip) :
    Except PyErr (LiftMultipleData × List Clip) := do
  let (t1, _) ← _remove_clip t d.from_index
  let clips_count := d.to_index + 1 - d.from_index
  if clips_count ≤ d.clips.length then
    .ok (d, _insert_clip_loop t1 d.from_index (d.clips.take clips_count))
  else
    .error .indexError

/-- `_lift_multiple_redo` (edit.py:313-323): removes the clips, then inserts
one blank of their summed length at `from_index`. -/
def _lift_multiple_redo (d : LiftMultipleData) (t : List Clip) :
    Except PyErr (LiftMultipleData × List Clip) := do
  let (t1, cs) ← _remove_clip_loop t d.from_index (d.to_index + 1 - d.from_index)
  let removed_length := (cs.map _clip_length).sum
  .ok ({ d with clips := cs }, _insert_blank t1 d.from_index removed_length)

-- ----------------- CUT CLIP (edit.py:326-346)

structure CutData where
  index : Nat
  clip_cut_frame : Int
  clip : Clip
  new_clip : Option Clip := none
deriving DecidableEq, Repr

/-- `_cut_undo` (edit.py:333-338): removes both halves and re-inserts the
original clip spanning `[clip.clip_in, new_clip.clip_out]` (reading
`self.new_clip` before any redo would raise `AttributeError`). -/
def _cut_undo (d : CutData) (t : List Clip) :
    Except PyErr (CutData × List Clip) := do
  let (t1, _) ← _remove_clip t d.index
  let (t2, _) ← _remove_clip t1 d.index
  match d.new_clip with
  | none => .error .attributeError
  | some nc =>
      let (t3, c) := _insert_clip t2 d.clip d.index d.clip.clip_in nc.clip_out
      .ok ({ d with clip := c }, t3)

/-- `_cut_redo` (edit.py:340-346): memoizes the clone on first run
(`hasattr(self, "new_clip")`), then cuts. -/
def _cut_redo (d : CutData) (t : List Clip) :
    Except PyErr (CutData × List Clip) := do
  let nc :=
    match d.new_clip with
    | some c => c
    | none => _create_clip_clone d.clip
  let (t1, c1, c2) ← _cut t d.index d.clip_cut_frame d.clip nc
  .ok ({ d with clip := c1, new_clip := some c2 }, t1)

-- ----------------- INSERT CLIP (edit.py:349-361)

structure InsertData where
  clip : Clip
  index : Nat
  clip_in : Int
  clip_out : Int
deriving DecidableEq, Repr

/-- `_insert_undo` (edit.py:356-357). -/
def _insert_undo (d : InsertData) (t : List Clip) :
    Except PyErr (InsertData × List Clip) := do
  let (t1, _) ← _remove_clip t d.index
  .ok (d, t1)

/-- `_insert_redo` (edit.py:359-361). -/
def _insert_redo (d : InsertData) (t : List Clip) : InsertData × List Clip :=
  let (t1, c) := _insert_clip t d.clip d.index d.clip_in d.clip_out
  ({ d with clip := c }, t1)

-- ----------------- 3 POINT OVERWRITE (edit.py:364-387)

structure ThreeOverData where
  clip : Clip
  clip_in : Int
  clip_out : Int
  in_index : Nat
  out_index : Nat
  clips : List Clip := []
deriving DecidableEq, Repr

/-- The removal loop of `_three_over_redo` (edit.py:383-385):
`for i in range(in_index, out_index + 1): removed_clip = _remove_clip(track, i)`
— the removal index follows the loop variable while the list shrinks. -/
def _three_over_remove_loop (t : List Clip) (i : Nat) :
    Nat → Except PyErr (List Clip × List Clip)
  | 0 => .ok (t, [])
  | k + 1 => do
      let (t1, c) ← _remove_clip t i
      let (t2, cs) ← _three_over_remove_loop t1 (i + 1) k
      .ok (t2, c :: cs)

/-- `_three_over_undo` (edit.py:370-378): removes the single clip at
`in_index` and re-inserts the saved clips at consecutive indices. -/
def _three_over_undo (d : ThreeOverData) (t : List Clip) :
    Except PyErr (ThreeOverData × List Clip) := do
  let (t1, _) ← _remove_clip t d.in_index
  let clips_count := d.out_index + 1 - d.in_index
  if clips_count ≤ d.clips.length then
    .ok (d, _insert_clip_loop t1 d.in_index (d.clips.take clips_count))
  else
    .error .indexError

/-- `_three_over_redo` (edit.py:380-387). -/
def _three_over_redo (d : ThreeOverData) (t : List Clip) :
    Except PyErr (ThreeOverData × List Clip) := do
  let (t1, cs) ← _three_over_remove_loop t d.in_index (d.out_index + 1 - d.in_index)
  let (t2, c) := _insert_clip t1 d.clip d.in_index d.clip_in d.clip_out
  .ok ({ d with clips := cs, clip := c }, t2)

-- ----------------- TWO_ROLL_TRIM (edit.py:462-517)

/-- Two-roll trim action data.  `from_clip`/`to_clip` are the segments left
and right of the edited boundary, `delta` the boundary displacement.
Modelled from the spec: the fields `non_edit_side_blank`, `cut_frame`,
`to_side_being_edited`, `edit_done_callback` and the `first_do` flag are
assembled by the caller (`trimmodes.py`, not under `src/`); per §4.3 the
action starts its life with `first_do = True` so that the external
edit-done callback fires exactly once, on the first forward run.  The
callback itself is external; its invocation is modelled as the `Bool`
component of the result. -/
structure TworollData where
  index : Nat
  from_clip : Clip
  to_clip : Clip
  delta : Int
  non_edit_side_blank : Bool
  cut_frame : Int
  first_do : Bool
  to_length : Int := 0
  from_length : Int := 0
deriving DecidableEq, Repr

/-- `_tworoll_trim_undo` (edit.py:469-490).  All callers trim an interior
boundary, so `index ≥ 1`; the source's `index - 1` is Nat subtraction here.
The edit-done callback call in undo is commented out in the source, hence
the flag is always `false`. -/
def _tworoll_trim_undo (d : TworollData) (t : List Clip) :
    Except PyErr (TworollData × List Clip × Bool) := do
  let (t1, _) ← _remove_clip t d.index
  let (t2, _) ← _remove_clip t1 (d.index - 1)
  if d.non_edit_side_blank = false then
    let (t3, f) := _insert_clip t2 d.from_clip (d.index - 1)
        d.from_clip.clip_in (d.from_clip.clip_out - d.delta)
    let (t4, tc) := _insert_clip t3 d.to_clip d.index
        (d.to_clip.clip_in - d.delta) d.to_clip.clip_out
    .ok ({ d with from_clip := f, to_clip := tc }, t4, false)
  else if d.to_clip.is_blanck_clip then
    let (t3, f) := _insert_clip t2 d.from_clip (d.index - 1)
        d.from_clip.clip_in (d.from_clip.clip_out - d.delta)
    let t4 := _insert_blank t3 d.index d.to_length
    .ok ({ d with from_clip := f }, t4, false)
  else
    let t3 := _insert_blank t2 (d.index - 1) d.from_length
    let (t4, tc) := _insert_clip t3 d.to_clip d.index
        (d.to_clip.clip_in - d.delta) d.to_clip.clip_out
    .ok ({ d with to_clip := tc }, t4, false)

/-- `_tworoll_trim_redo` (edit.py:492-517): shifts the shared boundary by
`delta`, substituting a fresh blank on the non-edited side when that side is
a blank; fires the edit-done callback only when `first_do` was set. -/
def _tworoll_trim_redo (d : TworollData) (t : List Clip) :
    Except PyErr (TworollData × List Clip × Bool) := do
  let (t1, _) ← _remove_clip t d.index
  let (t2, _) ← _remove_clip t1 (d.index - 1)
  let (d2, t5) ←
    if d.non_edit_side_blank = false then
      let (t3, f) := _insert_clip t2 d.from_clip (d.index - 1)
          d.from_clip.clip_in (d.from_clip.clip_out + d.delta)
      let (t4, tc) := _insert_clip t3 d.to_clip d.index
          (d.to_clip.clip_in + d.delta) d.to_clip.clip_out
      Except.ok ({ d with from_clip := f, to_clip := tc }, t4)
    else if d.to_clip.is_blanck_clip then
      let (t3, f) := _insert_clip t2 d.from_clip (d.index - 1)
          d.from_clip.clip_in (d.from_clip.clip_out + d.delta)
      let to_length := d.to_clip.clip_out - d.to_clip.clip_in + 1
      let t4 := _insert_blank t3 d.index (to_length - d.delta)
      Except.ok ({ d with from_clip := f, to_length := to_length }, t4)
    else
      let from_length := d.from_clip.clip_out - d.from_clip.clip_in + 1
      let t3 := _insert_blank t2 (d.index - 1) (from_length + d.delta)
      let (t4, tc) := _insert_clip t3 d.to_clip d.index
          (d.to_clip.clip_in + d.delta) d.to_clip.clip_out
      Except.ok ({ d with to_clip := tc, from_length := from_length }, t4)
  if d2.first_do = true then
    .ok ({ d2 with first_do := false }, t5, true)
  else
    .ok (d2, t5, false)

-- -------------------- INSERT MOVE (edit.py:519-561)

structure InsertMoveData where
  insert_index : Nat
  selected_range_in : Nat
  selected_range_out : Nat
  clips : List Clip := []
  real_insert_index : Nat := 0
deriving DecidableEq, Repr

/-- `_insert_move_undo` (edit.py:527-538): removes `len(self.clips)` clips
at `real_insert_index`, then re-inserts the saved clips at
`selected_range_in + i`.  The external `move_edit_done_func` callback does
not touch the track and is not modelled. -/
def _insert_move_undo (d : InsertMoveData) (t : List Clip) :
    Except PyErr (InsertMoveData × List Clip) := do
  let (t1, _) ← _remove_clip_loop t d.real_insert_index d.clips.length
  .ok (d, _insert_clip_loop t1 d.selected_range_in d.clips)

/-- `_insert_move_redo` (edit.py:540-561): when the insert point lies after
the selected range, it shifts left by the range length (the clips are gone
by insertion time). -/
def _insert_move_redo (d : InsertMoveData) (t : List Clip) :
    Except PyErr (InsertMoveData × List Clip) := do
  let clips_length := d.selected_range_out - d.selected_range_in + 1
  let real :=
    if d.insert_index > d.selected_range_out then d.insert_index - clips_length
    else d.insert_index
  let (t1, cs) ← _remove_clip_loop t d.selected_range_in clips_length
  .ok ({ d with clips := cs, real_insert_index := real },
       _insert_clip_loop t1 real cs)

-- ----------------- OVERWRITE MOVE (edit.py:607-722)

structure OverwriteMoveData where
  track : Nat
  over_in : Int
  over_out : Int
  selected_range_in : Nat
  selected_range_out : Nat
  moved_clips : List Clip := []
  in_clip_out : Int := 0
  out_clip_in : Int := 0
  out_clip_length : Int := 0
  removed_clips : List Clip := []
  starts_after_end : Bool := false
deriving DecidableEq, Repr

/-- `_overwrite_move_redo` (edit.py:676-722): lifts the selected range into
a blank, pads the track when the destination starts past the end, cuts the
destination boundaries, splices out the covered segments, inserts the
lifted clips and removes trailing blanks. -/
def _overwrite_move_redo (d : OverwriteMoveData) (t : List Clip) :
    Except PyErr (OverwriteMoveData × List Clip) := do
  let (t1, moved) ← _remove_clip_loop t d.selected_range_in
      (d.selected_range_out + 1 - d.selected_range_in)
  let removed_length := d.over_out - d.over_in
  let t2 := _insert_blank t1 d.selected_range_in removed_length
  let (t3, starts_after_end) :=
    if d.over_in ≥ get_length t2 then
      (_insert_blank t2 t2.length (d.over_out - get_length t2), true)
    else
      (t2, false)
  let (t4, in_pair) ← _overwrite_cut_track t3 d.over_in
  let in_clip_out := in_pair.2
  let (t5, out_clip_in, out_clip_length) ←
    if get_length t4 > d.over_out then do
      let (ta, out_pair) ← _overwrite_cut_track t4 d.over_out
      Except.ok (ta, out_pair.1, out_pair.2 - out_pair.1 + 1)
    else
      Except.ok (t4, -1, d.out_clip_length)
  let in_index := get_clip_index_at t5 d.over_in
  let out_index := get_clip_index_at t5 d.over_out
  let (t6, removed) ← _remove_clip_loop t5 in_index (out_index - in_index)
  let t7 := _insert_clip_loop t6 in_index moved
  .ok ({ d with
         moved_clips := moved,
         starts_after_end := starts_after_end,
         in_clip_out := in_clip_out,
         out_clip_in := out_clip_in,
         out_clip_length := out_clip_length,
         removed_clips := removed },
       _remove_trailing_blanks t7)

/-- `_overwrite_move_undo` (edit.py:615-674).  The two `try/except: pass`
blocks around `_remove_clip` (end-of-track moves) are modelled by matching
on the `IndexError`; `removed_clips.pop(0)`/`.pop(-1)` mutate the saved
list.  When an in-cut was recorded the cut's left half precedes the moved
clips, so `moved_index ≥ 1` on that path (`moved_index - 1` is Nat
subtraction here). -/
def _overwrite_move_undo (d : OverwriteMoveData) (t : List Clip) :
    Except PyErr (OverwriteMoveData × List Clip) := do
  let moved_clips_count := d.selected_range_out + 1 - d.selected_range_in
  let moved_index := get_clip_index_at t d.over_in
  let (t1, _) ← _remove_clip_loop t moved_index moved_clips_count
  let (t2, removed_clips1) ←
    if d.in_clip_out ≠ -1 then do
      let (ta, in_clip) ← _remove_clip t1 (moved_index - 1)
      let tb :=
        if in_clip.is_blanck_clip ≠ true then
          (_insert_clip ta in_clip (moved_index - 1) in_clip.clip_in d.in_clip_out).1
        else
          _insert_blank ta (moved_index - 1) (d.in_clip_out - in_clip.clip_in + 1)
      match d.removed_clips with
      | [] => Except.error PyErr.indexError
      | _ :: rest => Except.ok (tb, rest)
    else
      Except.ok (t1, d.removed_clips)
  let (t3, removed_clips2) ←
    if d.out_clip_in ≠ -1 then
      match _remove_clip t2 moved_index with
      | .error _ => Except.ok (t2, removed_clips1)
      | .ok (ta, out_clip) =>
          if removed_clips1.length > 0 then
            let tb :=
              if !out_clip.is_blanck_clip then
                (_insert_clip ta out_clip moved_index d.out_clip_in out_clip.clip_out).1
              else
                _insert_blank ta moved_index d.out_clip_length
            Except.ok (tb, removed_clips1.dropLast)
          else
            Except.ok (ta, removed_clips1)
    else
      Except.ok (t2, removed_clips1)
  let t4 := _insert_clip_loop t3 moved_index removed_clips2
  let t5 :=
    match _remove_clip t4 d.selected_range_in with
    | .error _ => t4
    | .ok (ta, _) => ta
  let t6 := _insert_clip_loop t5 d.selected_range_in d.moved_clips
  .ok ({ d with removed_clips := removed_clips2 }, _remove_trailing_blanks t6)

-- ------------------ TRIM CLIP START (edit.py:877-901)

structure TrimStartData where
  clip : Clip
  index : Nat
  delta : Int
  first_do : Bool
deriving DecidableEq, Repr

/-- `_trim_start_undo` (edit.py:884-890); the reinit callback call is
commented out in the source. -/
def _trim_start_undo (d : TrimStartData) (t : List Clip) :
    Except PyErr (TrimStartData × List Clip) := do
  let (t1, _) ← _remove_clip t d.index
  let (t2, c) := _insert_clip t1 d.clip d.index
      (d.clip.clip_in - d.delta) d.clip.clip_out
  .ok ({ d with clip := c }, t2)

/-- `_trim_start_redo` (edit.py:893-901); the first-run reinit callback does
not touch the track. -/
def _trim_start_redo (d : TrimStartData) (t : List Clip) :
    Except PyErr (TrimStartData × List Clip) := do
  let (t1, _) ← _remove_clip t d.index
  let (t2, c) := _insert_clip t1 d.clip d.index
      (d.clip.clip_in + d.delta) d.clip.clip_out
  if d.first_do = true then
    .ok ({ d with clip := c, first_do := false }, t2)
  else
    .ok ({ d with clip := c }, t2)

-- ------------------ TRIM CLIP END (edit.py:903-927)

structure TrimEndData where
  clip : Clip
  index : Nat
  delta : Int
  first_do : Bool
deriving DecidableEq, Repr

/-- `_trim_end_undo` (edit.py:911-917). -/
def _trim_end_undo (d : TrimEndData) (t : List Clip) :
    Except PyErr (TrimEndData × List Clip) := do
  let (t1, _) ← _remove_clip t d.index
  let (t2, c) := _insert_clip t1 d.clip d.index
      d.clip.clip_in (d.clip.clip_out - d.delta)
  .ok ({ d with clip := c }, t2)

/-- `_trim_end_redo` (edit.py:919-927). -/
def _trim_end_redo (d : TrimEndData) (t : List Clip) :
    Except PyErr (TrimEndData × List Clip) := do
  let (t1, _) ← _remove_clip t d.index
  let (t2, c) := _insert_clip t1 d.clip d.index
      d.clip.clip_in (d.clip.clip_out + d.delta)
  if d.first_do = true then
    .ok ({ d with clip := c, first_do := false }, t2)
  else
    .ok ({ d with clip := c }, t2)

-- ---------------------------------------- CONSOLIDATE SELECTED BLANKS (edit.py:1483-1500)

structure ConsolidateBlanksData where
  index : Nat
  removed_lengths : List Int := []
deriving DecidableEq, Repr

/-- `_consolidate_selected_blanks_undo` (edit.py:1489-1493): removes the
consolidated blank, then re-inserts blanks of the recorded lengths at
consecutive indices. -/
def _consolidate_selected_blanks_undo (d : ConsolidateBlanksData)
    (t : List Clip) : Except PyErr (ConsolidateBlanksData × List Clip) := do
  let (t1, _) ← _remove_clip t d.index
  .ok (d, _insert_blank_loop t1 d.index d.removed_lengths)

/-- `_consolidate_selected_blanks_redo` (edit.py:1495-1500): removes the run
of blanks at `index` and inserts one blank of the summed length. -/
def _consolidate_selected_blanks_redo (d : ConsolidateBlanksData)
    (t : List Clip) : Except PyErr (ConsolidateBlanksData × List Clip) := do
  let (ls, t1) ← _remove_consecutive_blanks t d.index
  let total_length := ls.sum
  .ok ({ d with removed_lengths := ls }, _insert_blank t1 d.index total_length)

-- --------------------------------------- MUTE / UNMUTE (edit.py:170-182, 1397-1421)

/-- The zero-gain volume filter built by `_create_mute_volume_filter`
(edit.py:170-174): both the `gain` and `end` engine properties are set
to 0. -/
structure MuteFilter where
  gain : Int
  end_value : Int
deriving DecidableEq, Repr

/-- The audio-mute-relevant state of one clip: the engine-side attached
filter stack and the Python-side `mute_filter` reference. -/
structure AudioClip where
  attached_filters : List MuteFilter
  mute_filter : Option MuteFilter
deriving DecidableEq, Repr

/-- `_create_mute_volume_filter(seq)` (edit.py:170-174): requires the
sequence as its one parameter and returns the zero-gain filter. -/
def _create_mute_volume_filter (seq : Nat) : MuteFilter :=
  let _ := seq
  { gain := 0, end_value := 0 }

/-- `_do_clip_mute` (edit.py:176-178): attaches the filter and records it in
`clip.mute_filter`. -/
def _do_clip_mute (c : AudioClip) (volume_filter : MuteFilter) : AudioClip :=
  { attached_filters := c.attached_filters ++ [volume_filter],
    mute_filter := some volume_filter }

/-- `_do_clip_unmute` (edit.py:180-182): detaches `clip.mute_filter` and
clears it (`AttributeError`-like failure on a `None` mute filter is modelled
as an error). -/
def _do_clip_unmute (c : AudioClip) : Except PyErr AudioClip :=
  match c.mute_filter with
  | none => .error .attributeError
  | some f =>
      .ok { attached_filters := c.attached_filters.erase f, mute_filter := none }

/-- `_mute_clip_redo` (edit.py:1406-1408). -/
def _mute_clip_redo (c : AudioClip) : AudioClip :=
  _do_clip_mute c (_create_mute_volume_filter 0)

/-- `_mute_clip_undo` (edit.py:1403-1404). -/
def _mute_clip_undo (c : AudioClip) : Except PyErr AudioClip :=
  _do_clip_unmute c

/-- `_unmute_clip_redo` (edit.py:1420-1421). -/
def _unmute_clip_redo (c : AudioClip) : Except PyErr AudioClip :=
  _do_clip_unmute c

/-- `_unmute_clip_undo` (edit.py:1416-1418).  The body executes
`mute_filter = _create_mute_volume_filter()` — a zero-argument call —
but `_create_mute_volume_filter` (edit.py:170) has one required parameter
`seq`, so in Python the call raises `TypeError` before any filter is
created or attached; `_do_clip_mute` is never reached. -/
def _unmute_clip_undo (c : AudioClip) : Except PyErr AudioClip :=
  let _ := c
  .error .typeError

/-- Modelled from the spec (§4.3 Mute/Unmute: unmute's undo must recreate an
equivalent mute filter rather than reuse a stale one): what the spec says
the unmute undo does — build a fresh zero-gain filter and attach it. -/
def unmute_undo_as_specified (c : AudioClip) : AudioClip :=
  _do_clip_mute c (_create_mute_volume_filter 0)

-- ------------------------------------------------- RESYNC ALL (edit.py:1262-1337)

/-- A per-track timeline: track id to segment list.  The resync batch moves
clips on the tracks named in the resync tuples. -/
def Timeline : Type := Nat → List Clip

/-- Replace one track's contents. -/
def updateTrack (σ : Timeline) (id : Nat) (t : List Clip) : Timeline :=
  fun j => if j = id then t else σ j

/-- One entry of the resync data list: `(clip, track, index, pos_offset)`
as produced by the synchronization collaborator. -/
structure ResyncTuple where
  clip : Clip
  track : Nat
  index : Nat
  pos_offset : Int

/-- `_create_and_do_sync_actions_list` (edit.py:1312-1337): skips clips
already at their recorded offset; for the others builds an overwrite-move
whose destination is the clip's current start shifted by
`-(pos_offset - sync_data.pos_offset)`, runs its redo immediately and
collects the (post-redo) action.  Reading `clip.sync_data.pos_offset` on a
clip with no sync data raises `AttributeError`. -/
def _create_and_do_sync_actions_list :
    List ResyncTuple → Timeline → Except PyErr (List OverwriteMoveData × Timeline)
  | [], σ => .ok ([], σ)
  | tu :: rest, σ =>
      match tu.clip.sync_data with
      | none => .error .attributeError
      | some sd =>
          if tu.pos_offset = sd.pos_offset then
            _create_and_do_sync_actions_list rest σ
          else
            let diff := tu.pos_offset - sd.pos_offset
            let over_in := clip_start (σ tu.track) tu.index - diff
            let over_out := over_in + (tu.clip.clip_out - tu.clip.clip_in + 1)
            let a : OverwriteMoveData :=
              { track := tu.track, over_in := over_in, over_out := over_out,
                selected_range_in := tu.index, selected_range_out := tu.index }
            do
              let (a2, t2) ← _overwrite_move_redo a (σ tu.track)
              let (acts, σ2) ←
                _create_and_do_sync_actions_list rest (updateTrack σ tu.track t2)
              .ok (a2 :: acts, σ2)

/-- The replay loop of `_resync_all_redo` (edit.py:1279-1281):
`for action in self.actions: action.redo_func(action)` — each action object
is mutated in place, so the held list ends up with the updated states. -/
def _replay_actions :
    List OverwriteMoveData → Timeline → Except PyErr (List OverwriteMoveData × Timeline)
  | [], σ => .ok ([], σ)
  | a :: rest, σ => do
      let (a2, t2) ← _overwrite_move_redo a (σ a.track)
      let (as2, σ2) ← _replay_actions rest (updateTrack σ a.track t2)
      .ok (a2 :: as2, σ2)

/-- The undo loop of `_resync_all_undo` (edit.py:1271-1272):
`for action in self.actions: action.undo_func(action)` over the reversed
list. -/
def _undo_actions :
    List OverwriteMoveData → Timeline → Except PyErr (List OverwriteMoveData × Timeline)
  | [], σ => .ok ([], σ)
  | a :: rest, σ => do
      let (a2, t2) ← _overwrite_move_undo a (σ a.track)
      let (as2, σ2) ← _undo_actions rest (updateTrack σ a.track t2)
      .ok (a2 :: as2, σ2)

/-- The resync action's captured state: the memoized action list, absent
until the first forward run (`hasattr(self, "actions")`). -/
structure ResyncAllData where
  actions : Option (List OverwriteMoveData) := none

/-- `_resync_all_redo` (edit.py:1276-1284): when `actions` is memoized this
is a pure replay; otherwise the list is generated from the resync data.
`resync.get_resync_data_list()` lives in `resync.py` (not under `src/`), so
the resync data list is taken as a parameter. -/
def _resync_all_redo (d : ResyncAllData) (resync_data : List ResyncTuple)
    (σ : Timeline) : Except PyErr (ResyncAllData × Timeline) :=
  match d.actions with
  | some acts => do
      let (as2, σ2) ← _replay_actions acts σ
      .ok ({ actions := some as2 }, σ2)
  | none => do
      let (acts, σ2) ← _create_and_do_sync_actions_list resync_data σ
      .ok ({ actions := some acts }, σ2)

/-- `_resync_all_undo` (edit.py:1268-1274): reverses the action list in
place, applies each action's undo function in that (reverse-of-generation)
order, then reverses the list back. -/
def _resync_all_undo (d : ResyncAllData) (σ : Timeline) :
    Except PyErr (ResyncAllData × Timeline) :=
  match d.actions with
  | none => .error .attributeError
  | some acts => do
      let (as2, σ2) ← _undo_actions acts.reverse σ
      .ok ({ actions := some as2.reverse }, σ2)

-- --------------------------------- the two mirrored representations (C2)

/-- A track with both representations explicit: the Python-side list
`clips` and the engine-side mirrored structure `mlt`. -/
structure MirroredTrack where
  clips : List Clip
  mlt : List Clip
deriving DecidableEq, Repr

/-- One atomic mutation of a track, as classified in edit.py:54-93: every
composite operation touches the track only through these. -/
inductive AtomicStep where
  | insertC (clip : Clip) (index : Nat) (clip_in clip_out : Int)
  | insertB (index : Nat) (length : Int)
  | removeC (index : Nat)

/-- `_insert_clip` / `_insert_blank` / `_remove_clip` acting on both
representations in lock-step, exactly as the source lines do
(`track.clips.insert` + `track.insert`, `track.insert_blank` +
`track.clips.insert`, `track.remove` + `track.clips.pop`). -/
def applyStep (mt : MirroredTrack) : AtomicStep → Except PyErr MirroredTrack
  | .insertC clip index cin cout =>
      let c := { clip with clip_in := cin, clip_out := cout }
      .ok { clips := insertAt mt.clips index c, mlt := insertAt mt.mlt index c }
  | .insertB index length =>
      .ok { clips := insertAt mt.clips index (mkBlank length),
            mlt := insertAt mt.mlt index (mkBlank length) }
  | .removeC index => do
      let (m2, _) ← pop mt.mlt index
      let (c2, _) ← pop mt.clips index
      .ok { clips := c2, mlt := m2 }

/-- A composite operation's track footprint: a sequence of atomic steps. -/
def applySteps : List AtomicStep → MirroredTrack → Except PyErr MirroredTrack
  | [], mt => .ok mt
  | s :: rest, mt => do
      let mt2 ← applyStep mt s
      applySteps rest mt2

-- ===================================================================
-- Track invariants (spec section 3)
-- ===================================================================

/-- Per-segment invariant: positive length (`clip_out >= clip_in`), and a
Blank's attributes are determined by its length alone (`clip_in` fixed at 0,
`clip_out = length - 1`, no media/filters/sync data). -/
def validClip (c : Clip) : Prop :=
  1 ≤ _clip_length c ∧ (c.is_blanck_clip = true → c = mkBlank (_clip_length c))

instance (c : Clip) : Decidable (validClip c) := by
  unfold validClip
  infer_instance

/-- Track invariant: every segment is valid. -/
def validTrack (t : List Clip) : Prop := ∀ c ∈ t, validClip c

instance (t : List Clip) : Decidable (validTrack t) := by
  unfold validTrack
  infer_instance

-- --------------------------- two-roll callback accounting

/-- One history operation on an action that has already been done once. -/
inductive HistOp where
  | undoOp
  | redoOp

/-- Runs a sequence of history operations on a two-roll action, counting the
edit-done callback invocations; an exception propagates out of the history
machinery, aborting the remaining operations. -/
def runTworollOps : List HistOp → TworollData × List Clip → Nat
  | [], _ => 0
  | op :: rest, (d, t) =>
      match (match op with
             | HistOp.undoOp => _tworoll_trim_undo d t
             | HistOp.redoOp => _tworoll_trim_redo d t) with
      | .error _ => 0
      | .ok (d2, t2, fired) =>
          (if fired then 1 else 0) + runTworollOps rest (d2, t2)

/-- A two-roll action's whole lifetime: the first forward run (`do_edit`)
followed by arbitrary undo/redo operations; counts callback invocations. -/
def tworollLifetimeFires (d : TworollData) (t : List Clip)
    (ops : List HistOp) : Nat :=
  match _tworoll_trim_redo d t with
  | .error _ => 0
  | .ok (d2, t2, fired) =>
      (if fired then 1 else 0) + runTworollOps ops (d2, t2)

-- --------------------------- insert-move lemmas

/-- The segments at indices `i, …, i+k-1` of a track. -/
def sliceClips (t : List Clip) (i k : Nat) : List Clip :=
  (t.drop i).take k

/-- A track with the segments at indices `i, …, i+k-1` removed. -/
def removeSlice (t : List Clip) (i k : Nat) : List Clip :=
  t.take i ++ t.drop (i + k)

/-- An existing segment boundary of the track: the starting frame of one of
its segments. -/
def IsBoundary (t : List Clip) (frame : Int) : Prop :=
  ∃ i, i < t.length ∧ clip_start t i = frame

instance (t : List Clip) (frame : Int) : Decidable (IsBoundary t frame) :=
  decidable_of_iff (∃ i ∈ List.range t.length, clip_start t i = frame)
    (by simp [IsBoundary, List.mem_range])

/-- Undoing a generated action list in reverse order of generation, stated
recursively: the actions generated after the head are undone first, then
the head. -/
def undoAllRev : List OverwriteMoveData → Timeline →
    Except PyErr (List OverwriteMoveData × Timeline)
  | [], σ => .ok ([], σ)
  | a :: rest, σ => do
      let (as2, σ2) ← undoAllRev rest σ
      let (a2, t2) ← _overwrite_move_undo a (σ2 a.track)
      .ok (a2 :: as2, updateTrack σ2 a.track t2)

-- ===================================================================
-- Concrete fixtures
-- ===================================================================

/-- A media clip of length 5 (`clip_in = 0`, `clip_out = 4`). -/
def clipA : Clip :=
  { clip_in := 0, clip_out := 4, is_blanck_clip := false, media := 1,
    filters := [], sync_data := none }

/-- A media clip of length 3 (`clip_in = 10`, `clip_out = 12`). -/
def clipB : Clip :=
  { clip_in := 10, clip_out := 12, is_blanck_clip := false, media := 2,
    filters := [], sync_data := none }

/-- A media clip of length 7 (`clip_in = 20`, `clip_out = 26`). -/
def clipC : Clip :=
  { clip_in := 20, clip_out := 26, is_blanck_clip := false, media := 3,
    filters := [], sync_data := none }

/-- The overwrite-move action of the C1 counterexample: move the single
clip at index 0 (length 5) onto destination frames `[2, 7)` of its own
track. -/
def omData : OverwriteMoveData :=
  { track := 0, over_in := 2, over_out := 7,
    selected_range_in := 0, selected_range_out := 0 }

/-- The spec's worked track: clips of lengths 10, 20 and 15 (boundaries at
frames 0, 10, 30, 45). -/
def clipT1 : Clip :=
  { clip_in := 0, clip_out := 9, is_blanck_clip := false, media := 4,
    filters := [], sync_data := none }

def clipT2 : Clip :=
  { clip_in := 5, clip_out := 24, is_blanck_clip := false, media := 5,
    filters := [], sync_data := none }

def clipT3 : Clip :=
  { clip_in := 0, clip_out := 14, is_blanck_clip := false, media := 6,
    filters := [], sync_data := none }

/-- A clip bound to a sync master with recorded offset 5. -/
def clipS : Clip :=
  { clip_in := 0, clip_out := 4, is_blanck_clip := false, media := 1,
    filters := [], sync_data := some { pos_offset := 5 } }

/-- A one-track timeline fixture. -/
def sigma0 : Timeline := fun _ => [clipA]

-- ===================================================================
-- Lemmas about the list primitives
-- ===================================================================

theorem insertAt_append {α : Type} (l1 l2 : List α) (n : Nat) (x : α)
    (hn : n = l1.length) : insertAt (l1 ++ l2) n x = l1 ++ x :: l2 := by
  subst hn
  induction l1 with
  | nil => cases l2 <;> rfl
  | cons a l ih => simpa [insertAt] using ih

theorem pop_append (l1 : List Clip) (c : Clip) (r : List Clip) (n : Nat)
    (hn : n = l1.length) : pop (l1 ++ c :: r) n = .ok (l1 ++ r, c) := by
  subst hn
  induction l1 with
  | nil => rfl
  | cons a l ih =>
    show pop (a :: (l ++ c :: r)) (l.length + 1) = _
    simp only [pop, ih]
    rfl

theorem getAt_append (l1 : List Clip) (c : Clip) (r : List Clip) (n : Nat)
    (hn : n = l1.length) : getAt (l1 ++ c :: r) n = .ok c := by
  subst hn
  induction l1 with
  | nil => rfl
  | cons a l ih => simpa [getAt] using ih

theorem clip_eta (c : Clip) :
    ({ c with clip_in := c.clip_in, clip_out := c.clip_out } : Clip) = c := rfl

theorem bind_ok {α β : Type} (a : α) (f : α → Except PyErr β) :
    (Except.ok a : Except PyErr α) >>= f = f a := rfl

theorem bind_error {α β : Type} (e : PyErr) (f : α → Except PyErr β) :
    (Except.error e : Except PyErr α) >>= f = .error e := rfl

theorem _remove_clip_loop_append (l1 l2 : List Clip) (n k : Nat)
    (hn : n = l1.length) (hk : k ≤ l2.length) :
    _remove_clip_loop (l1 ++ l2) n k = .ok (l1 ++ l2.drop k, l2.take k) := by
  subst hn
  induction k generalizing l2 with
  | zero => simp [_remove_clip_loop]
  | succ k ih =>
    cases l2 with
    | nil => simp at hk
    | cons c r =>
      have hk2 : k ≤ r.length := by
        simpa using Nat.le_of_succ_le_succ (by simpa using hk)
      simp only [_remove_clip_loop, _remove_clip,
        pop_append l1 c r l1.length rfl, bind_ok, ih r hk2,
        List.drop_succ_cons, List.take_succ_cons]

theorem _insert_clip_loop_append (l1 l2 cs : List Clip) (n : Nat)
    (hn : n = l1.length) :
    _insert_clip_loop (l1 ++ l2) n cs = l1 ++ cs ++ l2 := by
  subst hn
  induction cs generalizing l1 with
  | nil => simp [_insert_clip_loop]
  | cons c cs ih =>
    have h1 : _insert_clip (l1 ++ l2) c l1.length c.clip_in c.clip_out =
        (l1 ++ c :: l2, c) := by
      simp [_insert_clip, insertAt_append l1 l2 l1.length c rfl, clip_eta]
    have h2 : l1 ++ c :: l2 = (l1 ++ [c]) ++ l2 := by simp
    have h3 : l1.length + 1 = (l1 ++ [c]).length := by simp
    calc _insert_clip_loop (l1 ++ l2) l1.length (c :: cs)
        = _insert_clip_loop (l1 ++ c :: l2) (l1.length + 1) cs := by
          simp only [_insert_clip_loop, h1]
      _ = l1 ++ c :: cs ++ l2 := by
          rw [h2, h3, ih (l1 ++ [c])]
          simp

theorem _insert_blank_loop_append (l1 l2 : List Clip) (ls : List Int) (n : Nat)
    (hn : n = l1.length) :
    _insert_blank_loop (l1 ++ l2) n ls = l1 ++ ls.map mkBlank ++ l2 := by
  subst hn
  induction ls generalizing l1 with
  | nil => simp [_insert_blank_loop]
  | cons len rest ih =>
    have h1 : _insert_blank (l1 ++ l2) l1.length len = l1 ++ mkBlank len :: l2 := by
      simp [_insert_blank, insertAt_append l1 l2 l1.length _ rfl]
    have h2 : l1 ++ mkBlank len :: l2 = (l1 ++ [mkBlank len]) ++ l2 := by simp
    have h3 : l1.length + 1 = (l1 ++ [mkBlank len]).length := by simp
    calc _insert_blank_loop (l1 ++ l2) l1.length (len :: rest)
        = _insert_blank_loop (l1 ++ mkBlank len :: l2) (l1.length + 1) rest := by
          simp only [_insert_blank_loop, h1]
      _ = l1 ++ mkBlank len :: rest.map mkBlank ++ l2 := by
          rw [h2, h3, ih (l1 ++ [mkBlank len])]
          simp

theorem take_length_of_le {α : Type} (t : List α) (i : Nat) (h : i ≤ t.length) :
    (t.take i).length = i := by
  simp [List.length_take, Nat.min_eq_left h]

-- ===================================================================
-- Round-trip lemmas for the catalog entries
-- ===================================================================

theorem append_roundtrip (d : AppendData) (t : List Clip) :
    (_append_undo (_append_redo d t).1 (_append_redo d t).2).map Prod.snd
      = .ok t := by
  simp only [_append_redo, append_clip, _append_undo, _remove_clip]
  have hlen : (t ++ [{ d.clip with clip_in := d.clip_in, clip_out := d.clip_out }]).length - 1
      = t.length := by simp
  rw [hlen, pop_append t _ [] t.length rfl, bind_ok]
  simp [Except.map]

theorem insert_roundtrip (d : InsertData) (t : List Clip)
    (h : d.index ≤ t.length) :
    (_insert_undo (_insert_redo d t).1 (_insert_redo d t).2).map Prod.snd
      = .ok t := by
  simp only [_insert_redo, _insert_clip, _insert_undo, _remove_clip]
  rw [show t = t.take d.index ++ t.drop d.index from (List.take_append_drop ..).symm]
  rw [insertAt_append _ _ _ _ (take_length_of_le t d.index h).symm,
    pop_append _ _ _ _ (take_length_of_le t d.index h).symm, bind_ok]
  simp [Except.map]

theorem bindE_ok {α β : Type} (a : α) (f : α → Except PyErr β) :
    (Except.ok a : Except PyErr α).bind f = f a := rfl

theorem remove_multiple_roundtrip (d : RemoveMultipleData) (t : List Clip)
    (h1 : d.from_index ≤ d.to_index) (h2 : d.to_index < t.length) :
    ((_remove_multiple_redo d t).bind
        (fun p => _remove_multiple_undo p.1 p.2)).map Prod.snd = .ok t := by
  have hle : d.from_index ≤ t.length := Nat.le_of_lt (Nat.lt_of_le_of_lt h1 h2)
  have hk : d.to_index + 1 - d.from_index ≤ (t.drop d.from_index).length := by
    simp only [List.length_drop]
    omega
  have htake : ((t.drop d.from_index).take (d.to_index + 1 - d.from_index)).length
      = d.to_index + 1 - d.from_index := take_length_of_le _ _ hk
  simp only [_remove_multiple_redo]
  conv in _remove_clip_loop t _ _ =>
    rw [show t = t.take d.from_index ++ t.drop d.from_index from
      (List.take_append_drop ..).symm]
  rw [_remove_clip_loop_append _ _ _ _ (take_length_of_le t d.from_index hle).symm hk,
    bind_ok, bindE_ok]
  simp only [_remove_multiple_undo, htake, le_refl, if_pos, List.take_take,
    Nat.min_self]
  rw [_insert_clip_loop_append _ _ _ _ (take_length_of_le t d.from_index hle).symm]
  simp only [Except.map, List.append_assoc, List.take_append_drop]

theorem lift_multiple_redo_spec (d : LiftMultipleData) (t : List Clip)
    (h1 : d.from_index ≤ d.to_index) (h2 : d.to_index < t.length) :
    _lift_multiple_redo d t =
      .ok ({ d with clips := (t.drop d.from_index).take (d.to_index + 1 - d.from_index) },
        t.take d.from_index ++
          mkBlank (((t.drop d.from_index).take (d.to_index + 1 - d.from_index)).map _clip_length).sum ::
          t.drop (d.from_index + (d.to_index + 1 - d.from_index))) := by
  have hle : d.from_index ≤ t.length := Nat.le_of_lt (Nat.lt_of_le_of_lt h1 h2)
  have hk : d.to_index + 1 - d.from_index ≤ (t.drop d.from_index).length := by
    simp only [List.length_drop]
    omega
  simp only [_lift_multiple_redo]
  conv in _remove_clip_loop t _ _ =>
    rw [show t = t.take d.from_index ++ t.drop d.from_index from
      (List.take_append_drop ..).symm]
  rw [_remove_clip_loop_append _ _ _ _ (take_length_of_le t d.from_index hle).symm hk,
    bind_ok]
  simp only [_insert_blank]
  rw [insertAt_append _ _ _ _ (take_length_of_le t d.from_index hle).symm]
  rw [List.drop_drop]

theorem lift_multiple_roundtrip (d : LiftMultipleData) (t : List Clip)
    (h1 : d.from_index ≤ d.to_index) (h2 : d.to_index < t.length) :
    ((_lift_multiple_redo d t).bind
        (fun p => _lift_multiple_undo p.1 p.2)).map Prod.snd = .ok t := by
  have hle : d.from_index ≤ t.length := Nat.le_of_lt (Nat.lt_of_le_of_lt h1 h2)
  have hk : d.to_index + 1 - d.from_index ≤ (t.drop d.from_index).length := by
    simp only [List.length_drop]
    omega
  have htake : ((t.drop d.from_index).take (d.to_index + 1 - d.from_index)).length
      = d.to_index + 1 - d.from_index := take_length_of_le _ _ hk
  rw [lift_multiple_redo_spec d t h1 h2, bindE_ok]
  simp only [_lift_multiple_undo, _remove_clip]
  rw [pop_append _ _ _ _ (take_length_of_le t d.from_index hle).symm, bind_ok]
  simp only [htake, le_refl, if_pos, List.take_take, Nat.min_self]
  rw [_insert_clip_loop_append _ _ _ _ (take_length_of_le t d.from_index hle).symm]
  rw [show d.from_index + (d.to_index + 1 - d.from_index) = d.to_index + 1 by omega]
  simp only [Except.map]
  rw [List.append_assoc]
  rw [show (t.drop d.from_index).take (d.to_index + 1 - d.from_index) ++ t.drop (d.to_index + 1)
      = t.drop d.from_index by
    conv in t.drop (d.to_index + 1) =>
      rw [show d.to_index + 1 = d.from_index + (d.to_index + 1 - d.from_index) by omega,
        ← List.drop_drop]
    exact List.take_append_drop ..]
  rw [List.take_append_drop]

theorem insertAt_append_succ {α : Type} (l1 l2 : List α) (a x : α) (n : Nat)
    (hn : n = l1.length) : insertAt (l1 ++ a :: l2) (n + 1) x = l1 ++ a :: x :: l2 := by
  subst hn
  have h := insertAt_append (l1 ++ [a]) l2 (l1 ++ [a]).length x rfl
  simpa using h

theorem pop_append_succ (l1 l2 : List Clip) (a b : Clip) (n : Nat)
    (hn : n = l1.length) : pop (l1 ++ a :: b :: l2) (n + 1) = .ok (l1 ++ a :: l2, b) := by
  subst hn
  have h := pop_append (l1 ++ [a]) b l2 (l1 ++ [a]).length rfl
  simpa using h

theorem cut_roundtrip (d : CutData) (l1 l2 : List Clip)
    (hi : d.index = l1.length) :
    ((_cut_redo d (l1 ++ d.clip :: l2)).bind
        (fun p => _cut_undo p.1 p.2)).map Prod.snd = .ok (l1 ++ d.clip :: l2) := by
  obtain ⟨index, ccf, clip, nclip⟩ := d
  simp only at hi
  subst hi
  simp only [_cut_redo, _cut, _remove_clip,
    pop_append l1 clip l2 l1.length rfl, bind_ok, _insert_clip]
  rw [insertAt_append l1 l2 l1.length _ rfl]
  rw [insertAt_append_succ l1 l2 _ _ l1.length rfl]
  simp only [bindE_ok, _cut_undo, _remove_clip]
  rw [pop_append l1 _ _ l1.length rfl, bind_ok,
    pop_append l1 _ l2 l1.length rfl, bind_ok]
  simp only [_insert_clip]
  rw [insertAt_append l1 l2 l1.length _ rfl]
  simp [Except.map]

theorem trim_start_roundtrip (d : TrimStartData) (l1 l2 : List Clip)
    (hi : d.index = l1.length) :
    ((_trim_start_redo d (l1 ++ d.clip :: l2)).bind
        (fun p => _trim_start_undo p.1 p.2)).map Prod.snd
      = .ok (l1 ++ d.clip :: l2) := by
  obtain ⟨clip, index, delta, fd⟩ := d
  simp only at hi
  subst hi
  simp only [_trim_start_redo, _remove_clip,
    pop_append l1 clip l2 l1.length rfl, bind_ok, _insert_clip]
  rw [insertAt_append l1 l2 l1.length _ rfl]
  cases hfd : fd <;>
    · simp only [hfd, Bool.false_eq_true,
        ite_false, ite_true, bindE_ok, _trim_start_undo, _remove_clip]
      rw [pop_append l1 _ l2 l1.length rfl, bind_ok]
      simp only [_insert_clip]
      rw [insertAt_append l1 l2 l1.length _ rfl]
      simp [Except.map, add_sub_cancel_right]

theorem trim_end_roundtrip (d : TrimEndData) (l1 l2 : List Clip)
    (hi : d.index = l1.length) :
    ((_trim_end_redo d (l1 ++ d.clip :: l2)).bind
        (fun p => _trim_end_undo p.1 p.2)).map Prod.snd
      = .ok (l1 ++ d.clip :: l2) := by
  obtain ⟨clip, index, delta, fd⟩ := d
  simp only at hi
  subst hi
  simp only [_trim_end_redo, _remove_clip,
    pop_append l1 clip l2 l1.length rfl, bind_ok, _insert_clip]
  rw [insertAt_append l1 l2 l1.length _ rfl]
  cases hfd : fd <;>
    · simp only [hfd, Bool.false_eq_true,
        ite_false, ite_true, bindE_ok, _trim_end_undo, _remove_clip]
      rw [pop_append l1 _ l2 l1.length rfl, bind_ok]
      simp only [_insert_clip]
      rw [insertAt_append l1 l2 l1.length _ rfl]
      simp [Except.map, add_sub_cancel_right]

theorem tworoll_redo_spec_nonblank (d : TworollData) (l1 l2 : List Clip)
    (hi : d.index = l1.length + 1) (hb : d.non_edit_side_blank = false) :
    _tworoll_trim_redo d (l1 ++ d.from_clip :: d.to_clip :: l2) =
      .ok ({ d with
             from_clip := { d.from_clip with
                            clip_out := d.from_clip.clip_out + d.delta },
             to_clip := { d.to_clip with
                          clip_in := d.to_clip.clip_in + d.delta },
             first_do := false },
           l1 ++ { d.from_clip with clip_out := d.from_clip.clip_out + d.delta } ::
             { d.to_clip with clip_in := d.to_clip.clip_in + d.delta } :: l2,
           d.first_do) := by
  obtain ⟨index, fc, tc, delta, neb, cf, fd, tl, fl⟩ := d
  simp only at hi hb ⊢
  subst hi
  subst hb
  simp only [_tworoll_trim_redo, _remove_clip,
    pop_append_succ l1 l2 fc tc l1.length rfl, bind_ok, Nat.add_sub_cancel,
    pop_append l1 fc l2 l1.length rfl, _insert_clip]
  rw [insertAt_append l1 l2 l1.length _ rfl]
  rw [insertAt_append_succ l1 l2 _ _ l1.length rfl]
  cases fd <;> simp [bindE_ok]

theorem tworoll_roundtrip_nonblank (d : TworollData) (l1 l2 : List Clip)
    (hi : d.index = l1.length + 1) (hb : d.non_edit_side_blank = false) :
    ((_tworoll_trim_redo d (l1 ++ d.from_clip :: d.to_clip :: l2)).bind
        (fun p => _tworoll_trim_undo p.1 p.2.1)).map (fun p => p.2.1)
      = .ok (l1 ++ d.from_clip :: d.to_clip :: l2) := by
  rw [tworoll_redo_spec_nonblank d l1 l2 hi hb, bindE_ok]
  obtain ⟨index, fc, tc, delta, neb, cf, fd, tl, fl⟩ := d
  simp only at hi hb ⊢
  subst hi
  subst hb
  simp only [_tworoll_trim_undo, _remove_clip,
    pop_append_succ l1 l2 _ _ l1.length rfl, bind_ok, Nat.add_sub_cancel,
    pop_append l1 _ l2 l1.length rfl, _insert_clip]
  rw [insertAt_append l1 l2 l1.length _ rfl]
  rw [insertAt_append_succ l1 l2 _ _ l1.length rfl]
  simp [Except.map, add_sub_cancel_right]

theorem tworoll_redo_spec_toblank (d : TworollData) (l1 l2 : List Clip)
    (hi : d.index = l1.length + 1) (hb : d.non_edit_side_blank = true)
    (htb : d.to_clip.is_blanck_clip = true) :
    _tworoll_trim_redo d (l1 ++ d.from_clip :: d.to_clip :: l2) =
      .ok ({ d with
             from_clip := { d.from_clip with
                            clip_out := d.from_clip.clip_out + d.delta },
             to_length := _clip_length d.to_clip,
             first_do := false },
           l1 ++ { d.from_clip with clip_out := d.from_clip.clip_out + d.delta } ::
             mkBlank (_clip_length d.to_clip - d.delta) :: l2,
           d.first_do) := by
  obtain ⟨index, fc, tc, delta, neb, cf, fd, tl, fl⟩ := d
  simp only at hi hb htb ⊢
  subst hi
  subst hb
  simp only [_tworoll_trim_redo, _remove_clip,
    pop_append_succ l1 l2 fc tc l1.length rfl, bind_ok, Nat.add_sub_cancel,
    pop_append l1 fc l2 l1.length rfl, _insert_clip, htb, Bool.true_eq_false,
    if_false, ite_true, ite_false, _insert_blank]
  rw [insertAt_append l1 l2 l1.length _ rfl]
  rw [insertAt_append_succ l1 l2 _ _ l1.length rfl]
  cases fd <;> simp [bindE_ok, _clip_length]

theorem tworoll_roundtrip_toblank (d : TworollData) (l1 l2 : List Clip)
    (hi : d.index = l1.length + 1) (hb : d.non_edit_side_blank = true)
    (htb : d.to_clip.is_blanck_clip = true)
    (hcan : d.to_clip = mkBlank (_clip_length d.to_clip)) :
    ((_tworoll_trim_redo d (l1 ++ d.from_clip :: d.to_clip :: l2)).bind
        (fun p => _tworoll_trim_undo p.1 p.2.1)).map (fun p => p.2.1)
      = .ok (l1 ++ d.from_clip :: d.to_clip :: l2) := by
  rw [tworoll_redo_spec_toblank d l1 l2 hi hb htb, bindE_ok]
  obtain ⟨index, fc, tc, delta, neb, cf, fd, tl, fl⟩ := d
  simp only at hi hb htb hcan ⊢
  subst hi
  subst hb
  simp only [_tworoll_trim_undo, _remove_clip,
    pop_append_succ l1 l2 _ _ l1.length rfl, bind_ok, Nat.add_sub_cancel,
    pop_append l1 _ l2 l1.length rfl, _insert_clip, htb, Bool.true_eq_false,
    if_false, ite_true, ite_false, _insert_blank]
  rw [insertAt_append l1 l2 l1.length _ rfl]
  rw [insertAt_append_succ l1 l2 _ _ l1.length rfl]
  simp only [Except.map, add_sub_cancel_right]
  rw [← hcan]

theorem tworoll_redo_spec_fromblank (d : TworollData) (l1 l2 : List Clip)
    (hi : d.index = l1.length + 1) (hb : d.non_edit_side_blank = true)
    (htb : d.to_clip.is_blanck_clip = false) :
    _tworoll_trim_redo d (l1 ++ d.from_clip :: d.to_clip :: l2) =
      .ok ({ d with
             to_clip := { d.to_clip with
                          clip_in := d.to_clip.clip_in + d.delta },
             from_length := _clip_length d.from_clip,
             first_do := false },
           l1 ++ mkBlank (_clip_length d.from_clip + d.delta) ::
             { d.to_clip with clip_in := d.to_clip.clip_in + d.delta } :: l2,
           d.first_do) := by
  obtain ⟨index, fc, tc, delta, neb, cf, fd, tl, fl⟩ := d
  simp only at hi hb htb ⊢
  subst hi
  subst hb
  simp only [_tworoll_trim_redo, _remove_clip,
    pop_append_succ l1 l2 fc tc l1.length rfl, bind_ok, Nat.add_sub_cancel,
    pop_append l1 fc l2 l1.length rfl, _insert_clip, htb, Bool.false_eq_true, Bool.true_eq_false,
    if_false, ite_true, ite_false, _insert_blank]
  rw [insertAt_append l1 l2 l1.length _ rfl]
  rw [insertAt_append_succ l1 l2 _ _ l1.length rfl]
  cases fd <;> simp [bindE_ok, _clip_length]

theorem tworoll_roundtrip_fromblank (d : TworollData) (l1 l2 : List Clip)
    (hi : d.index = l1.length + 1) (hb : d.non_edit_side_blank = true)
    (htb : d.to_clip.is_blanck_clip = false)
    (hcan : d.from_clip = mkBlank (_clip_length d.from_clip)) :
    ((_tworoll_trim_redo d (l1 ++ d.from_clip :: d.to_clip :: l2)).bind
        (fun p => _tworoll_trim_undo p.1 p.2.1)).map (fun p => p.2.1)
      = .ok (l1 ++ d.from_clip :: d.to_clip :: l2) := by
  rw [tworoll_redo_spec_fromblank d l1 l2 hi hb htb, bindE_ok]
  obtain ⟨index, fc, tc, delta, neb, cf, fd, tl, fl⟩ := d
  simp only at hi hb htb hcan ⊢
  subst hi
  subst hb
  simp only [_tworoll_trim_undo, _remove_clip,
    pop_append_succ l1 l2 _ _ l1.length rfl, bind_ok, Nat.add_sub_cancel,
    pop_append l1 _ l2 l1.length rfl, _insert_clip, htb, Bool.false_eq_true, Bool.true_eq_false,
    if_false, ite_true, ite_false, _insert_blank]
  rw [insertAt_append l1 l2 l1.length _ rfl]
  rw [insertAt_append_succ l1 l2 _ _ l1.length rfl]
  simp only [Except.map, add_sub_cancel_right]
  rw [← hcan, ← htb]

theorem tworoll_undo_preserves (d : TworollData) (t : List Clip)
    (r : TworollData × List Clip × Bool)
    (h : _tworoll_trim_undo d t = .ok r) :
    r.1.first_do = d.first_do ∧ r.2.2 = false := by
  unfold _tworoll_trim_undo at h
  cases h1 : _remove_clip t d.index with
  | error e =>
    rw [h1, bind_error] at h
    exact Except.noConfusion h
  | ok p1 =>
    obtain ⟨t1, c1⟩ := p1
    simp only [h1, bind_ok] at h
    cases h2 : _remove_clip t1 (d.index - 1) with
    | error e =>
      rw [h2, bind_error] at h
      exact Except.noConfusion h
    | ok p2 =>
      obtain ⟨t2, c2⟩ := p2
      simp only [h2, bind_ok, _insert_clip, _insert_blank] at h
      split at h
      · cases h
        exact ⟨rfl, rfl⟩
      · split at h
        · cases h
          exact ⟨rfl, rfl⟩
        · cases h
          exact ⟨rfl, rfl⟩

theorem tworoll_redo_fires (d : TworollData) (t : List Clip)
    (r : TworollData × List Clip × Bool)
    (h : _tworoll_trim_redo d t = .ok r) :
    r.1.first_do = false ∧ r.2.2 = d.first_do := by
  unfold _tworoll_trim_redo at h
  cases h1 : _remove_clip t d.index with
  | error e =>
    rw [h1, bind_error] at h
    exact Except.noConfusion h
  | ok p1 =>
    obtain ⟨t1, c1⟩ := p1
    simp only [h1, bind_ok] at h
    cases h2 : _remove_clip t1 (d.index - 1) with
    | error e =>
      rw [h2, bind_error] at h
      exact Except.noConfusion h
    | ok p2 =>
      obtain ⟨t2, c2⟩ := p2
      simp only [h2, bind_ok, _insert_clip, _insert_blank] at h
      split at h
      · split at h
        · cases h
          simp_all
        · cases h
          simp_all
      · split at h
        · split at h
          · cases h
            simp_all
          · cases h
            simp_all
        · split at h
          · cases h
            simp_all
          · cases h
            simp_all

theorem runTworollOps_no_fire (ops : List HistOp) :
    ∀ d t, d.first_do = false → runTworollOps ops (d, t) = 0 := by
  induction ops with
  | nil => intro d t _; rfl
  | cons op rest ih =>
    intro d t h
    cases op with
    | undoOp =>
      simp only [runTworollOps]
      cases hr : _tworoll_trim_undo d t with
      | error e => rfl
      | ok r =>
        obtain ⟨d2, t2, fired⟩ := r
        have hp := tworoll_undo_preserves d t _ hr
        simp only at hp
        simp [hp.2, ih d2 t2 (hp.1.trans h)]
    | redoOp =>
      simp only [runTworollOps]
      cases hr : _tworoll_trim_redo d t with
      | error e => rfl
      | ok r =>
        obtain ⟨d2, t2, fired⟩ := r
        have hp := tworoll_redo_fires d t _ hr
        simp only at hp
        simp [hp.2, h, ih d2 t2 hp.1]

theorem tworoll_callback_once (d : TworollData) (t : List Clip)
    (ops : List HistOp) (r : TworollData × List Clip × Bool)
    (h1 : d.first_do = true) (h2 : _tworoll_trim_redo d t = .ok r) :
    tworollLifetimeFires d t ops = 1 := by
  unfold tworollLifetimeFires
  rw [h2]
  obtain ⟨d2, t2, fired⟩ := r
  have hp := tworoll_redo_fires d t _ h2
  simp only at hp
  have hf : fired = true := hp.2.trans h1
  simp [hf, runTworollOps_no_fire ops d2 t2 hp.1]

theorem insert_move_redo_spec (d : InsertMoveData) (t : List Clip)
    (h1 : d.selected_range_in ≤ d.selected_range_out)
    (h2 : d.selected_range_out < t.length)
    (h3 : d.insert_index ≤ t.length)
    (h4 : d.insert_index ≤ d.selected_range_in ∨
          d.selected_range_out < d.insert_index) :
    _insert_move_redo d t =
      .ok ({ d with
             clips := sliceClips t d.selected_range_in
               (d.selected_range_out - d.selected_range_in + 1),
             real_insert_index :=
               if d.insert_index > d.selected_range_out then
                 d.insert_index - (d.selected_range_out - d.selected_range_in + 1)
               else d.insert_index },
           (removeSlice t d.selected_range_in
               (d.selected_range_out - d.selected_range_in + 1)).take
             (if d.insert_index > d.selected_range_out then
                 d.insert_index - (d.selected_range_out - d.selected_range_in + 1)
               else d.insert_index) ++
           sliceClips t d.selected_range_in
             (d.selected_range_out - d.selected_range_in + 1) ++
           (removeSlice t d.selected_range_in
               (d.selected_range_out - d.selected_range_in + 1)).drop
             (if d.insert_index > d.selected_range_out then
                 d.insert_index - (d.selected_range_out - d.selected_range_in + 1)
               else d.insert_index)) := by
  have hin : d.selected_range_in ≤ t.length := by omega
  have hk : d.selected_range_out - d.selected_range_in + 1
      ≤ (t.drop d.selected_range_in).length := by
    simp only [List.length_drop]
    omega
  have hrem : (removeSlice t d.selected_range_in
      (d.selected_range_out - d.selected_range_in + 1)).length
      = t.length - (d.selected_range_out - d.selected_range_in + 1) := by
    simp only [removeSlice, List.length_append, List.length_take,
      List.length_drop]
    omega
  have hreal : (if d.insert_index > d.selected_range_out then
      d.insert_index - (d.selected_range_out - d.selected_range_in + 1)
      else d.insert_index) ≤ (removeSlice t d.selected_range_in
      (d.selected_range_out - d.selected_range_in + 1)).length := by
    rw [hrem]
    split <;> omega
  simp only [_insert_move_redo]
  conv in _remove_clip_loop t _ _ =>
    rw [show t = t.take d.selected_range_in ++ t.drop d.selected_range_in from
      (List.take_append_drop ..).symm]
  rw [_remove_clip_loop_append _ _ _ _
    (take_length_of_le t d.selected_range_in hin).symm hk, bind_ok]
  rw [List.drop_drop]
  conv in _insert_clip_loop _ _ _ =>
    rw [show t.take d.selected_range_in ++
        t.drop (d.selected_range_in + (d.selected_range_out - d.selected_range_in + 1))
        = removeSlice t d.selected_range_in
            (d.selected_range_out - d.selected_range_in + 1) from rfl]
    rw [show removeSlice t d.selected_range_in
          (d.selected_range_out - d.selected_range_in + 1)
        = (removeSlice t d.selected_range_in
            (d.selected_range_out - d.selected_range_in + 1)).take
            (if d.insert_index > d.selected_range_out then
                d.insert_index - (d.selected_range_out - d.selected_range_in + 1)
              else d.insert_index) ++
          (removeSlice t d.selected_range_in
            (d.selected_range_out - d.selected_range_in + 1)).drop
            (if d.insert_index > d.selected_range_out then
                d.insert_index - (d.selected_range_out - d.selected_range_in + 1)
              else d.insert_index) from (List.take_append_drop ..).symm]
  rw [_insert_clip_loop_append _ _ _ _ (take_length_of_le _ _ hreal).symm]
  rfl

theorem insert_move_roundtrip (d : InsertMoveData) (t : List Clip)
    (h1 : d.selected_range_in ≤ d.selected_range_out)
    (h2 : d.selected_range_out < t.length)
    (h3 : d.insert_index ≤ t.length)
    (h4 : d.insert_index ≤ d.selected_range_in ∨
          d.selected_range_out < d.insert_index) :
    ((_insert_move_redo d t).bind
        (fun p => _insert_move_undo p.1 p.2)).map Prod.snd = .ok t := by
  have hin : d.selected_range_in ≤ t.length := by omega
  have hk : d.selected_range_out - d.selected_range_in + 1
      ≤ (t.drop d.selected_range_in).length := by
    simp only [List.length_drop]
    omega
  have hmoved : (sliceClips t d.selected_range_in
      (d.selected_range_out - d.selected_range_in + 1)).length
      = d.selected_range_out - d.selected_range_in + 1 :=
    take_length_of_le _ _ hk
  have hrem : (removeSlice t d.selected_range_in
      (d.selected_range_out - d.selected_range_in + 1)).length
      = t.length - (d.selected_range_out - d.selected_range_in + 1) := by
    simp only [removeSlice, List.length_append, List.length_take,
      List.length_drop]
    omega
  have hreal : (if d.insert_index > d.selected_range_out then
      d.insert_index - (d.selected_range_out - d.selected_range_in + 1)
      else d.insert_index) ≤ (removeSlice t d.selected_range_in
      (d.selected_range_out - d.selected_range_in + 1)).length := by
    rw [hrem]
    split <;> omega
  rw [insert_move_redo_spec d t h1 h2 h3 h4, bindE_ok]
  simp only [_insert_move_undo]
  generalize hM : sliceClips t d.selected_range_in
    (d.selected_range_out - d.selected_range_in + 1) = M
  rw [hM] at hmoved
  generalize hR : removeSlice t d.selected_range_in
    (d.selected_range_out - d.selected_range_in + 1) = R
  rw [hR] at hreal
  generalize hI : (if d.insert_index > d.selected_range_out then
      d.insert_index - (d.selected_range_out - d.selected_range_in + 1)
      else d.insert_index) = real
  rw [hI] at hreal
  rw [List.append_assoc]
  rw [_remove_clip_loop_append (R.take real) (M ++ R.drop real) _ _
    (take_length_of_le _ _ hreal).symm (by simp)]
  rw [bind_ok]
  rw [List.drop_left, List.take_append_drop]
  rw [← hR]
  simp only [removeSlice]
  rw [_insert_clip_loop_append _ _ _ _
    (take_length_of_le t d.selected_range_in hin).symm]
  rw [← hM]
  simp only [sliceClips]
  rw [← List.drop_drop]
  simp only [Except.map, List.append_assoc, List.take_append_drop]

-- --------------------------- consecutive-blanks lemmas

theorem rcb_aux_spec (blanks : List Clip) (c : Clip) (l2 : List Clip)
    (hb : ∀ b ∈ blanks, b.is_blanck_clip = true)
    (hc : c.is_blanck_clip = false) :
    _remove_consecutive_blanks_aux (blanks ++ c :: l2) =
      .ok (blanks.map _clip_length, c :: l2) := by
  induction blanks with
  | nil => simp [_remove_consecutive_blanks_aux, hc]
  | cons b bs ih =>
    have hb1 : b.is_blanck_clip = true := hb b (by simp)
    have hbs : ∀ x ∈ bs, x.is_blanck_clip = true := fun x hx => hb x (by simp [hx])
    simp only [List.cons_append, _remove_consecutive_blanks_aux, hb1, if_true,
      List.append_eq, ih hbs, bind_ok, List.map_cons]

theorem remove_consecutive_blanks_spec (l1 blanks l2 : List Clip) (c : Clip)
    (index : Nat) (hi : index = l1.length)
    (hb : ∀ b ∈ blanks, b.is_blanck_clip = true)
    (hc : c.is_blanck_clip = false) :
    _remove_consecutive_blanks (l1 ++ blanks ++ c :: l2) index =
      .ok (blanks.map _clip_length, l1 ++ c :: l2) := by
  subst hi
  simp only [_remove_consecutive_blanks, List.append_assoc]
  rw [List.drop_left, List.take_left]
  rw [rcb_aux_spec blanks c l2 hb hc, bind_ok]

theorem consolidate_roundtrip (d : ConsolidateBlanksData)
    (l1 blanks l2 : List Clip) (c : Clip) (hi : d.index = l1.length)
    (hb : ∀ b ∈ blanks, b.is_blanck_clip = true)
    (hcan : ∀ b ∈ blanks, b = mkBlank (_clip_length b))
    (hc : c.is_blanck_clip = false) :
    ((_consolidate_selected_blanks_redo d (l1 ++ blanks ++ c :: l2)).bind
        (fun p => _consolidate_selected_blanks_undo p.1 p.2)).map Prod.snd
      = .ok (l1 ++ blanks ++ c :: l2) := by
  simp only [_consolidate_selected_blanks_redo, hi,
    remove_consecutive_blanks_spec l1 blanks l2 c l1.length rfl hb hc, bind_ok,
    bindE_ok, _consolidate_selected_blanks_undo, _insert_blank,
    insertAt_append l1 (c :: l2) l1.length _ rfl, _remove_clip,
    pop_append l1 _ (c :: l2) l1.length rfl]
  rw [_insert_blank_loop_append l1 (c :: l2) _ l1.length rfl]
  have hmb : (blanks.map _clip_length).map mkBlank = blanks := by
    rw [List.map_map]
    calc blanks.map (mkBlank ∘ _clip_length)
        = blanks.map id := List.map_congr_left (fun b hbmem => (hcan b hbmem).symm)
      _ = blanks := List.map_id blanks
  rw [hmb]
  simp [Except.map]

-- --------------------------- boundary analysis for cutTrackAtFrame (C3)

theorem get_length_cons (c : Clip) (rest : List Clip) :
    get_length (c :: rest) = _clip_length c + get_length rest := by
  simp [get_length]

theorem clip_start_cons_succ (c : Clip) (rest : List Clip) (i : Nat) :
    clip_start (c :: rest) (i + 1) = _clip_length c + clip_start rest i := by
  simp [clip_start, List.take_succ_cons]

theorem get_clip_index_at_spec (t : List Clip) (frame : Int)
    (hv : ∀ c ∈ t, 1 ≤ _clip_length c) (h0 : 0 ≤ frame)
    (hl : frame < get_length t) :
    ∃ c l2, t.drop (get_clip_index_at t frame) = c :: l2 ∧
      clip_start t (get_clip_index_at t frame) ≤ frame ∧
      frame < clip_start t (get_clip_index_at t frame) + _clip_length c := by
  induction t generalizing frame with
  | nil =>
    simp only [get_length, List.map_nil, List.sum_nil] at hl
    omega
  | cons c rest ih =>
    by_cases hf : frame < _clip_length c
    · refine ⟨c, rest, ?_, ?_, ?_⟩
      · simp [get_clip_index_at, hf]
      · simpa [get_clip_index_at, hf, clip_start] using h0
      · have hz : clip_start (c :: rest) 0 = 0 := by simp [clip_start]
        simp only [get_clip_index_at, hf, if_true, hz]
        omega
    · have h0' : 0 ≤ frame - _clip_length c := by omega
      have hl' : frame - _clip_length c < get_length rest := by
        rw [get_length_cons] at hl
        omega
      obtain ⟨c', l2, hd, hs1, hs2⟩ :=
        ih (frame - _clip_length c) (fun x hx => hv x (List.mem_cons_of_mem c hx)) h0' hl'
      refine ⟨c', l2, ?_, ?_, ?_⟩
      · simpa [get_clip_index_at, hf] using hd
      · simp only [get_clip_index_at, hf, if_neg, ite_false, clip_start_cons_succ]
        omega
      · simp only [get_clip_index_at, hf, if_neg, ite_false, clip_start_cons_succ]
        omega

theorem clip_start_nonneg (t : List Clip) (hv : ∀ c ∈ t, 1 ≤ _clip_length c) :
    ∀ i, 0 ≤ clip_start t i := by
  induction t with
  | nil => intro i; simp [clip_start]
  | cons c rest ih =>
    intro i
    cases i with
    | zero => simp [clip_start]
    | succ j =>
      rw [clip_start_cons_succ]
      have h1 : 1 ≤ _clip_length c := hv c (by simp)
      have h2 := ih (fun x hx => hv x (List.mem_cons_of_mem c hx)) j
      omega

theorem clip_start_strict_mono (t : List Clip)
    (hv : ∀ c ∈ t, 1 ≤ _clip_length c) :
    ∀ i j, i < j → j ≤ t.length → clip_start t i < clip_start t j := by
  induction t with
  | nil =>
    intro i j hij hj
    simp at hj
    omega
  | cons c rest ih =>
    intro i j hij hj
    cases j with
    | zero => omega
    | succ j' =>
      cases i with
      | zero =>
        have hz : clip_start (c :: rest) 0 = 0 := by simp [clip_start]
        rw [hz, clip_start_cons_succ]
        have h1 : 1 ≤ _clip_length c := hv c (by simp)
        have h2 := clip_start_nonneg rest
          (fun x hx => hv x (List.mem_cons_of_mem c hx)) j'
        omega
      | succ i' =>
        rw [clip_start_cons_succ, clip_start_cons_succ]
        have := ih (fun x hx => hv x (List.mem_cons_of_mem c hx)) i' j'
          (by omega) (by simpa using hj)
        omega

theorem clip_start_mono (t : List Clip) (hv : ∀ c ∈ t, 1 ≤ _clip_length c)
    (i j : Nat) (hij : i ≤ j) (hj : j ≤ t.length) :
    clip_start t i ≤ clip_start t j := by
  rcases Nat.eq_or_lt_of_le hij with h | h
  · rw [h]
  · exact le_of_lt (clip_start_strict_mono t hv i j h hj)

theorem clip_start_succ_of_drop (t : List Clip) (i : Nat) (c : Clip)
    (l2 : List Clip) (hd : t.drop i = c :: l2) :
    clip_start t (i + 1) = clip_start t i + _clip_length c := by
  induction t generalizing i with
  | nil => simp at hd
  | cons a rest ih =>
    cases i with
    | zero =>
      simp only [List.drop_zero] at hd
      cases hd
      simp [clip_start_cons_succ, clip_start]
    | succ i' =>
      simp only [List.drop_succ_cons] at hd
      rw [clip_start_cons_succ, clip_start_cons_succ, ih i' hd]
      omega

theorem lt_length_of_drop_cons (t : List Clip) (i : Nat) (c : Clip)
    (l2 : List Clip) (hd : t.drop i = c :: l2) : i < t.length := by
  by_contra hle
  rw [List.drop_eq_nil_of_le (by omega)] at hd
  exact List.noConfusion hd

theorem boundary_iff (t : List Clip) (frame : Int)
    (hv : ∀ c ∈ t, 1 ≤ _clip_length c) (h0 : 0 ≤ frame)
    (hl : frame < get_length t) :
    IsBoundary t frame ↔ clip_start t (get_clip_index_at t frame) = frame := by
  obtain ⟨c, l2, hd, hs1, hs2⟩ := get_clip_index_at_spec t frame hv h0 hl
  have hidx : get_clip_index_at t frame < t.length :=
    lt_length_of_drop_cons t _ c l2 hd
  constructor
  · rintro ⟨j, hj, hsj⟩
    rcases Nat.lt_trichotomy j (get_clip_index_at t frame) with hlt | heq | hgt
    · have := clip_start_strict_mono t hv j _ hlt (by omega)
      omega
    · rw [← heq]
      exact hsj
    · have hsucc := clip_start_succ_of_drop t _ c l2 hd
      have := clip_start_mono t hv (get_clip_index_at t frame + 1) j
        (by omega) (by omega)
      omega
  · intro h
    exact ⟨get_clip_index_at t frame, hidx, h⟩

theorem mkBlank_length (L : Int) : _clip_length (mkBlank L) = L := by
  simp [_clip_length, mkBlank]

theorem getAt_of_drop (t : List Clip) (n : Nat) (c : Clip) (l2 : List Clip)
    (hd : t.drop n = c :: l2) : getAt t n = .ok c := by
  induction t generalizing n with
  | nil => simp at hd
  | cons a rest ih =>
    cases n with
    | zero =>
      simp only [List.drop_zero] at hd
      cases hd
      rfl
    | succ n' =>
      simp only [List.drop_succ_cons] at hd
      simpa [getAt] using ih n' hd

theorem pop_of_drop (t : List Clip) (n : Nat) (c : Clip) (l2 : List Clip)
    (hd : t.drop n = c :: l2) : pop t n = .ok (t.take n ++ l2, c) := by
  induction t generalizing n with
  | nil => simp at hd
  | cons a rest ih =>
    cases n with
    | zero =>
      simp only [List.drop_zero] at hd
      cases hd
      rfl
    | succ n' =>
      simp only [List.drop_succ_cons] at hd
      simp only [pop, ih n' hd, bind_ok, List.take_succ_cons, List.cons_append]

theorem overwrite_cut_track_noop (t : List Clip) (frame : Int)
    (hv : validTrack t) (h0 : 0 ≤ frame) (hl : frame < get_length t)
    (hb : IsBoundary t frame) :
    _overwrite_cut_track t frame = .ok (t, (-1, -1)) := by
  have hv1 : ∀ c ∈ t, 1 ≤ _clip_length c := fun c hc => (hv c hc).1
  obtain ⟨c, l2, hd, hs1, hs2⟩ := get_clip_index_at_spec t frame hv1 h0 hl
  have hcs : clip_start t (get_clip_index_at t frame) = frame :=
    (boundary_iff t frame hv1 h0 hl).mp hb
  have hget : getAt t (get_clip_index_at t frame) = .ok c :=
    getAt_of_drop t _ c l2 hd
  have hfoc : _frame_on_cut c
      (frame - clip_start t (get_clip_index_at t frame) + c.clip_in) = true := by
    simp only [_frame_on_cut, hcs, Bool.or_eq_true, beq_iff_eq]
    left
    omega
  unfold _overwrite_cut_track
  simp only [hget, bind_ok, hfoc, Bool.not_true, Bool.false_eq_true, if_false,
    ite_false]

theorem overwrite_cut_track_split (t : List Clip) (frame : Int)
    (hv : validTrack t) (h0 : 0 ≤ frame) (hl : frame < get_length t)
    (hnb : ¬ IsBoundary t frame) :
    ∃ c l2 c1 c2, t.drop (get_clip_index_at t frame) = c :: l2 ∧
      _overwrite_cut_track t frame =
        .ok (t.take (get_clip_index_at t frame) ++ c1 :: c2 :: l2,
             (c.clip_in, c.clip_out)) ∧
      _clip_length c1 + _clip_length c2 = _clip_length c := by
  have hv1 : ∀ c ∈ t, 1 ≤ _clip_length c := fun c hc => (hv c hc).1
  obtain ⟨c, l2, hd, hs1, hs2⟩ := get_clip_index_at_spec t frame hv1 h0 hl
  have hidx : get_clip_index_at t frame < t.length :=
    lt_length_of_drop_cons t _ c l2 hd
  have hcs : clip_start t (get_clip_index_at t frame) ≠ frame :=
    fun h => hnb ((boundary_iff t frame hv1 h0 hl).mpr h)
  have hmem : c ∈ t := List.drop_subset _ t (hd ▸ List.mem_cons_self c l2)
  have hget : getAt t (get_clip_index_at t frame) = .ok c :=
    getAt_of_drop t _ c l2 hd
  have hpop : pop t (get_clip_index_at t frame) =
      .ok (t.take (get_clip_index_at t frame) ++ l2, c) :=
    pop_of_drop t _ c l2 hd
  have hfoc : _frame_on_cut c
      (frame - clip_start t (get_clip_index_at t frame) + c.clip_in) = false := by
    simp only [_frame_on_cut, Bool.or_eq_false_iff, beq_eq_false_iff_ne, ne_eq]
    constructor
    · intro h
      apply hcs
      omega
    · intro h
      have hc1 : 1 ≤ _clip_length c := hv1 c hmem
      simp only [_clip_length] at hs2 hc1
      omega
  unfold _overwrite_cut_track
  cases hcb : c.is_blanck_clip with
  | true =>
    have hcanc : c = mkBlank (_clip_length c) := (hv c hmem).2 hcb
    have hcin : c.clip_in = 0 := by
      rw [hcanc]
      rfl
    refine ⟨c, l2,
      mkBlank (frame - clip_start t (get_clip_index_at t frame) + c.clip_in),
      mkBlank (c.clip_out -
        (frame - clip_start t (get_clip_index_at t frame) + c.clip_in) + 1),
      hd, ?_, ?_⟩
    · simp only [hget, bind_ok, hfoc, Bool.not_false, if_true, hcb, ite_true,
        _cut_blank, _remove_clip, hpop, _insert_blank]
      rw [insertAt_append _ l2 _ _ (take_length_of_le t _ (le_of_lt hidx)).symm]
      rw [insertAt_append_succ _ l2 _ _ _ (take_length_of_le t _ (le_of_lt hidx)).symm]
    · rw [mkBlank_length, mkBlank_length]
      simp only [_clip_length]
      omega
  | false =>
    refine ⟨c, l2,
      { c with
        clip_in := c.clip_in,
        clip_out := frame - clip_start t (get_clip_index_at t frame) + c.clip_in - 1 },
      { _create_clip_clone c with
        clip_in := frame - clip_start t (get_clip_index_at t frame) + c.clip_in,
        clip_out := c.clip_out },
      hd, ?_, ?_⟩
    · simp only [hget, bind_ok, hfoc, Bool.not_false, if_true, hcb,
        Bool.false_eq_true, if_false, ite_false, _cut, _remove_clip, hpop,
        _insert_clip]
      rw [insertAt_append _ l2 _ _ (take_length_of_le t _ (le_of_lt hidx)).symm]
      rw [insertAt_append_succ _ l2 _ _ _ (take_length_of_le t _ (le_of_lt hidx)).symm]
    · simp only [_clip_length, _create_clip_clone]
      omega

-- --------------------------- mirrored-representation lemmas (C2)

theorem applyStep_preserves (mt : MirroredTrack) (s : AtomicStep)
    (mt2 : MirroredTrack) (hm : mt.clips = mt.mlt)
    (h : applyStep mt s = .ok mt2) : mt2.clips = mt2.mlt := by
  cases s with
  | insertC clip index cin cout =>
    simp only [applyStep] at h
    cases h
    simp [hm]
  | insertB index length =>
    simp only [applyStep] at h
    cases h
    simp [hm]
  | removeC index =>
    simp only [applyStep, hm] at h
    cases hp : pop mt.mlt index with
    | error e =>
      rw [hp, bind_error] at h
      exact Except.noConfusion h
    | ok p =>
      obtain ⟨m2, x⟩ := p
      simp only [hp, bind_ok] at h
      cases h
      rfl

theorem applySteps_preserves (steps : List AtomicStep) :
    ∀ mt mt2, mt.clips = mt.mlt → applySteps steps mt = .ok mt2 →
      mt2.clips = mt2.mlt := by
  induction steps with
  | nil =>
    intro mt mt2 hm h
    simp only [applySteps] at h
    cases h
    exact hm
  | cons s rest ih =>
    intro mt mt2 hm h
    simp only [applySteps] at h
    cases hs : applyStep mt s with
    | error e =>
      rw [hs, bind_error] at h
      exact Except.noConfusion h
    | ok mt1 =>
      rw [hs, bind_ok] at h
      exact ih mt1 mt2 (applyStep_preserves mt s mt1 hm hs) h

theorem mirrored_sum_length (mt : MirroredTrack) (hm : mt.clips = mt.mlt) :
    (mt.clips.map _clip_length).sum = get_length mt.mlt := by
  rw [hm]
  rfl

-- --------------------------- resynchronization lemmas (C8)

theorem sync_actions_skip (tu : ResyncTuple) (rest : List ResyncTuple)
    (σ : Timeline) (sd : SyncData) (hsd : tu.clip.sync_data = some sd)
    (heq : tu.pos_offset = sd.pos_offset) :
    _create_and_do_sync_actions_list (tu :: rest) σ =
      _create_and_do_sync_actions_list rest σ := by
  simp [_create_and_do_sync_actions_list, hsd, heq]

theorem sync_actions_all_skip (data : List ResyncTuple) (σ : Timeline)
    (h : ∀ tu ∈ data, ∃ sd, tu.clip.sync_data = some sd ∧
        tu.pos_offset = sd.pos_offset) :
    _create_and_do_sync_actions_list data σ = .ok ([], σ) := by
  induction data with
  | nil => rfl
  | cons tu rest ih =>
    obtain ⟨sd, hsd, heq⟩ := h tu (by simp)
    rw [sync_actions_skip tu rest σ sd hsd heq]
    exact ih (fun x hx => h x (List.mem_cons_of_mem tu hx))

theorem sync_actions_generate (tu : ResyncTuple) (rest : List ResyncTuple)
    (σ : Timeline) (sd : SyncData) (hsd : tu.clip.sync_data = some sd)
    (hne : tu.pos_offset ≠ sd.pos_offset) :
    _create_and_do_sync_actions_list (tu :: rest) σ = (do
      let (a2, t2) ← _overwrite_move_redo
        { track := tu.track,
          over_in := clip_start (σ tu.track) tu.index -
            (tu.pos_offset - sd.pos_offset),
          over_out := clip_start (σ tu.track) tu.index -
            (tu.pos_offset - sd.pos_offset) +
            (tu.clip.clip_out - tu.clip.clip_in + 1),
          selected_range_in := tu.index,
          selected_range_out := tu.index } (σ tu.track)
      let (acts, σ2) ←
        _create_and_do_sync_actions_list rest (updateTrack σ tu.track t2)
      Except.ok (a2 :: acts, σ2)) := by
  simp [_create_and_do_sync_actions_list, hsd, hne]

theorem resync_redo_memoized (d : ResyncAllData)
    (l : List OverwriteMoveData) (hd : d.actions = some l) (σ : Timeline)
    (dataA dataB : List ResyncTuple) :
    _resync_all_redo d dataA σ = _resync_all_redo d dataB σ ∧
    _resync_all_redo d dataA σ = (do
      let (as2, σ2) ← _replay_actions l σ
      Except.ok ({ actions := some as2 }, σ2)) := by
  constructor <;> simp [_resync_all_redo, hd]

theorem _undo_actions_append (xs ys : List OverwriteMoveData) (σ : Timeline) :
    _undo_actions (xs ++ ys) σ = (do
      let (as1, σ1) ← _undo_actions xs σ
      let (as2, σ2) ← _undo_actions ys σ1
      Except.ok (as1 ++ as2, σ2)) := by
  induction xs generalizing σ with
  | nil =>
    simp only [List.nil_append, _undo_actions, bind_ok]
    cases h : _undo_actions ys σ with
    | error e => simp [bind_error]
    | ok p =>
      obtain ⟨as2, σ2⟩ := p
      simp [bind_ok]
  | cons x xs ih =>
    simp only [List.cons_append, _undo_actions]
    cases hx : _overwrite_move_undo x (σ x.track) with
    | error e => simp [bind_error]
    | ok p =>
      obtain ⟨a2, t2⟩ := p
      simp only [bind_ok, List.append_eq]
      rw [ih (updateTrack σ x.track t2)]
      cases h1 : _undo_actions xs (updateTrack σ x.track t2) with
      | error e => simp [bind_error]
      | ok q =>
        obtain ⟨as1, σ1⟩ := q
        simp only [bind_ok]
        cases h2 : _undo_actions ys σ1 with
        | error e => simp [bind_error]
        | ok r =>
          obtain ⟨as2, σ2⟩ := r
          simp [bind_ok]

theorem _undo_actions_reverse (l : List OverwriteMoveData) (σ : Timeline) :
    _undo_actions l.reverse σ =
      (undoAllRev l σ).map (fun p => (p.1.reverse, p.2)) := by
  induction l generalizing σ with
  | nil => rfl
  | cons a rest ih =>
    simp only [List.reverse_cons, _undo_actions_append, ih σ, undoAllRev]
    cases h1 : undoAllRev rest σ with
    | error e => simp [Except.map, bind_error]
    | ok p =>
      obtain ⟨as2, σ2⟩ := p
      simp only [Except.map, bind_ok, _undo_actions]
      cases h2 : _overwrite_move_undo a (σ2 a.track) with
      | error e => simp [bind_error]
      | ok q =>
        obtain ⟨a2, t2⟩ := q
        simp [bind_ok, _undo_actions]

theorem resync_undo_reverse_order (d : ResyncAllData)
    (l : List OverwriteMoveData) (hd : d.actions = some l) (σ : Timeline) :
    _resync_all_undo d σ = (do
      let (as2, σ2) ← undoAllRev l σ
      Except.ok ({ actions := some as2 }, σ2)) := by
  simp only [_resync_all_undo, hd, _undo_actions_reverse l σ]
  cases h1 : undoAllRev l σ with
  | error e => simp [Except.map, bind_error]
  | ok p =>
    obtain ⟨as2, σ2⟩ := p
    simp [Except.map, bind_ok]

/-- Claim C1 (counterexample): the overwrite-move catalog entry does not
satisfy `undo(redo(action)) = identity` on every invariant-satisfying track
state.  On the track `[clipA, Blank 3]` (which satisfies the Track
invariants), the forward run's final `_remove_trailing_blanks` deletes the
pre-existing trailing blank, and the backward run does not restore it: the
round trip returns `[clipA]` instead of `[clipA, Blank 3]`. -/
theorem overwrite_move_undo_redo_not_restoring :
    validTrack [clipA, mkBlank 3] ∧
    ((_overwrite_move_redo omData [clipA, mkBlank 3]).bind
        (fun p => _overwrite_move_undo p.1 p.2)).map Prod.snd
      = .ok [clipA] ∧
    ((_overwrite_move_redo omData [clipA, mkBlank 3]).bind
        (fun p => _overwrite_move_undo p.1 p.2)).map Prod.snd
      ≠ .ok [clipA, mkBlank 3] := by
  refine ⟨by decide, by decide, by decide⟩

/-- Claim C4 (code bug): `_three_over_redo`'s removal loop passes the loop
variable `i` as the removal index while the list shrinks, so on
`[clipA, clipB, Blank 5]` with `in_index = 0`, `out_index = 1` it removes
`clipA` and the clip that started at index 2 (`Blank 5`) instead of the
claimed contiguous `[clipA, clipB]`; the redo leaves `[clipC, clipB]`
instead of `[clipC, Blank 5]`, and its own undo — which assumes contiguous
removal — then turns the original `[clipA, clipB, Blank 5]` into
`[clipA, Blank 5, clipB]`. -/
theorem three_point_overwrite_removes_wrong_clips :
    _three_over_redo
        { clip := clipC, clip_in := 20, clip_out := 26,
          in_index := 0, out_index := 1 } [clipA, clipB, mkBlank 5]
      = .ok ({ clip := clipC, clip_in := 20, clip_out := 26,
               in_index := 0, out_index := 1,
               clips := [clipA, mkBlank 5] }, [clipC, clipB]) ∧
    ([clipA, mkBlank 5] : List Clip) ≠ [clipA, clipB] ∧
    ((_three_over_redo
        { clip := clipC, clip_in := 20, clip_out := 26,
          in_index := 0, out_index := 1 } [clipA, clipB, mkBlank 5]).bind
        (fun p => _three_over_undo p.1 p.2)).map Prod.snd
      = .ok [clipA, mkBlank 5, clipB] ∧
    ([clipA, mkBlank 5, clipB] : List Clip) ≠ [clipA, clipB, mkBlank 5] := by
  refine ⟨by decide, by decide, by decide, by decide⟩

/-- Claim C7 (counterexample): when the run of consecutive blanks reaches
the end of the track, `_remove_consecutive_blanks` reads `track.clips[index]`
past the end and raises `IndexError` instead of returning the lengths — here
on the one-blank track `[Blank 2]` at index 0. -/
theorem remove_consecutive_blanks_end_of_track :
    _remove_consecutive_blanks [mkBlank 2] 0 = .error .indexError := by
  decide

/-- Claim C9 (code bug): `_unmute_clip_undo` calls
`_create_mute_volume_filter()` with no argument although the function
requires the sequence parameter, so it raises `TypeError` for every clip and
never attaches the fresh mute filter the spec requires. -/
theorem unmute_undo_raises_type_error :
    ∀ c : AudioClip,
      _unmute_clip_undo c = .error .typeError ∧
      _unmute_clip_undo c ≠ .ok (unmute_undo_as_specified c) := by
  intro c
  exact ⟨rfl, by simp [_unmute_clip_undo]⟩

theorem map_mkBlank_lengths (blanks : List Clip)
    (hcan : ∀ b ∈ blanks, b = mkBlank (_clip_length b)) :
    (blanks.map _clip_length).map mkBlank = blanks := by
  rw [List.map_map]
  calc blanks.map (mkBlank ∘ _clip_length)
      = blanks.map id := List.map_congr_left (fun b hbmem => (hcan b hbmem).symm)
    _ = blanks := List.map_id blanks

theorem reinsert_blanks (l1 l2 blanks : List Clip) (index : Nat)
    (hi : index = l1.length)
    (hcan : ∀ b ∈ blanks, b = mkBlank (_clip_length b)) :
    _insert_blank_loop (l1 ++ l2) index (blanks.map _clip_length)
      = l1 ++ blanks ++ l2 := by
  rw [_insert_blank_loop_append l1 l2 _ index hi,
    map_mkBlank_lengths blanks hcan, List.append_assoc]

/-- Claim C1 (amended): `undo(redo(action))` restores the exact
pre-forward-run segment state for the catalog entries append, insert,
remove-multiple, lift-multiple, cut, two-roll trim (all three blank
configurations), insert-move, trim-start, trim-end and
consolidate-selected-blanks, on every track state satisfying the Track
invariants and action data consistent with that state; it does NOT hold for
overwrite-move (see the counterexample theorem: the forward run's
trailing-blank removal deletes pre-existing state that undo cannot
restore). -/
theorem catalog_undo_redo_roundtrip :
    (∀ (d : AppendData) (t : List Clip),
      (_append_undo (_append_redo d t).1 (_append_redo d t).2).map Prod.snd
        = .ok t) ∧
    (∀ (d : InsertData) (t : List Clip), d.index ≤ t.length →
      (_insert_undo (_insert_redo d t).1 (_insert_redo d t).2).map Prod.snd
        = .ok t) ∧
    (∀ (d : RemoveMultipleData) (t : List Clip),
      d.from_index ≤ d.to_index → d.to_index < t.length →
      ((_remove_multiple_redo d t).bind
        (fun p => _remove_multiple_undo p.1 p.2)).map Prod.snd = .ok t) ∧
    (∀ (d : LiftMultipleData) (t : List Clip),
      d.from_index ≤ d.to_index → d.to_index < t.length →
      ((_lift_multiple_redo d t).bind
        (fun p => _lift_multiple_undo p.1 p.2)).map Prod.snd = .ok t) ∧
    (∀ (d : CutData) (l1 l2 : List Clip), d.index = l1.length →
      ((_cut_redo d (l1 ++ d.clip :: l2)).bind
        (fun p => _cut_undo p.1 p.2)).map Prod.snd = .ok (l1 ++ d.clip :: l2)) ∧
    (∀ (d : TworollData) (l1 l2 : List Clip), d.index = l1.length + 1 →
      d.non_edit_side_blank = false →
      ((_tworoll_trim_redo d (l1 ++ d.from_clip :: d.to_clip :: l2)).bind
        (fun p => _tworoll_trim_undo p.1 p.2.1)).map (fun p => p.2.1)
        = .ok (l1 ++ d.from_clip :: d.to_clip :: l2)) ∧
    (∀ (d : TworollData) (l1 l2 : List Clip), d.index = l1.length + 1 →
      d.non_edit_side_blank = true → d.to_clip.is_blanck_clip = true →
      d.to_clip = mkBlank (_clip_length d.to_clip) →
      ((_tworoll_trim_redo d (l1 ++ d.from_clip :: d.to_clip :: l2)).bind
        (fun p => _tworoll_trim_undo p.1 p.2.1)).map (fun p => p.2.1)
        = .ok (l1 ++ d.from_clip :: d.to_clip :: l2)) ∧
    (∀ (d : TworollData) (l1 l2 : List Clip), d.index = l1.length + 1 →
      d.non_edit_side_blank = true → d.to_clip.is_blanck_clip = false →
      d.from_clip = mkBlank (_clip_length d.from_clip) →
      ((_tworoll_trim_redo d (l1 ++ d.from_clip :: d.to_clip :: l2)).bind
        (fun p => _tworoll_trim_undo p.1 p.2.1)).map (fun p => p.2.1)
        = .ok (l1 ++ d.from_clip :: d.to_clip :: l2)) ∧
    (∀ (d : InsertMoveData) (t : List Clip),
      d.selected_range_in ≤ d.selected_range_out →
      d.selected_range_out < t.length → d.insert_index ≤ t.length →
      (d.insert_index ≤ d.selected_range_in ∨
        d.selected_range_out < d.insert_index) →
      ((_insert_move_redo d t).bind
        (fun p => _insert_move_undo p.1 p.2)).map Prod.snd = .ok t) ∧
    (∀ (d : TrimStartData) (l1 l2 : List Clip), d.index = l1.length →
      ((_trim_start_redo d (l1 ++ d.clip :: l2)).bind
        (fun p => _trim_start_undo p.1 p.2)).map Prod.snd
        = .ok (l1 ++ d.clip :: l2)) ∧
    (∀ (d : TrimEndData) (l1 l2 : List Clip), d.index = l1.length →
      ((_trim_end_redo d (l1 ++ d.clip :: l2)).bind
        (fun p => _trim_end_undo p.1 p.2)).map Prod.snd
        = .ok (l1 ++ d.clip :: l2)) ∧
    (∀ (d : ConsolidateBlanksData) (l1 blanks l2 : List Clip) (c : Clip),
      d.index = l1.length → (∀ b ∈ blanks, b.is_blanck_clip = true) →
      (∀ b ∈ blanks, b = mkBlank (_clip_length b)) →
      c.is_blanck_clip = false →
      ((_consolidate_selected_blanks_redo d (l1 ++ blanks ++ c :: l2)).bind
        (fun p => _consolidate_selected_blanks_undo p.1 p.2)).map Prod.snd
        = .ok (l1 ++ blanks ++ c :: l2)) :=
  ⟨append_roundtrip, insert_roundtrip, remove_multiple_roundtrip,
   lift_multiple_roundtrip, cut_roundtrip, tworoll_roundtrip_nonblank,
   tworoll_roundtrip_toblank, tworoll_roundtrip_fromblank,
   insert_move_roundtrip, trim_start_roundtrip, trim_end_roundtrip,
   consolidate_roundtrip⟩

/-- Witness for C1 (amended): each proved catalog entry, run on a concrete
track. -/
theorem catalog_undo_redo_roundtrip_witness :
    ((_append_undo (_append_redo ⟨clipB, 10, 12⟩ [clipA]).1
        (_append_redo ⟨clipB, 10, 12⟩ [clipA]).2).map Prod.snd
      = .ok [clipA]) ∧
    ((_insert_undo (_insert_redo ⟨clipB, 1, 10, 12⟩ [clipA, clipC]).1
        (_insert_redo ⟨clipB, 1, 10, 12⟩ [clipA, clipC]).2).map Prod.snd
      = .ok [clipA, clipC]) ∧
    (((_remove_multiple_redo ⟨0, 1, []⟩ [clipA, clipB, clipC]).bind
        (fun p => _remove_multiple_undo p.1 p.2)).map Prod.snd
      = .ok [clipA, clipB, clipC]) ∧
    (((_lift_multiple_redo ⟨0, 1, []⟩ [clipA, clipC]).bind
        (fun p => _lift_multiple_undo p.1 p.2)).map Prod.snd
      = .ok [clipA, clipC]) ∧
    (((_cut_redo ⟨1, 11, clipB, none⟩ ([clipA] ++ clipB :: [clipC])).bind
        (fun p => _cut_undo p.1 p.2)).map Prod.snd
      = .ok ([clipA] ++ clipB :: [clipC])) ∧
    (((_tworoll_trim_redo ⟨1, clipA, clipB, 2, false, 0, true, 0, 0⟩
        ([] ++ clipA :: clipB :: [clipC])).bind
        (fun p => _tworoll_trim_undo p.1 p.2.1)).map (fun p => p.2.1)
      = .ok ([] ++ clipA :: clipB :: [clipC])) ∧
    (((_tworoll_trim_redo ⟨1, clipA, mkBlank 3, 1, true, 0, true, 0, 0⟩
        ([] ++ clipA :: mkBlank 3 :: [clipC])).bind
        (fun p => _tworoll_trim_undo p.1 p.2.1)).map (fun p => p.2.1)
      = .ok ([] ++ clipA :: mkBlank 3 :: [clipC])) ∧
    (((_tworoll_trim_redo ⟨1, mkBlank 3, clipB, 1, true, 0, true, 0, 0⟩
        ([] ++ mkBlank 3 :: clipB :: [clipC])).bind
        (fun p => _tworoll_trim_undo p.1 p.2.1)).map (fun p => p.2.1)
      = .ok ([] ++ mkBlank 3 :: clipB :: [clipC])) ∧
    (((_insert_move_redo ⟨3, 0, 0, [], 0⟩ [clipA, clipB, clipC]).bind
        (fun p => _insert_move_undo p.1 p.2)).map Prod.snd
      = .ok [clipA, clipB, clipC]) ∧
    (((_trim_start_redo ⟨clipB, 1, 2, true⟩ ([clipA] ++ clipB :: [clipC])).bind
        (fun p => _trim_start_undo p.1 p.2)).map Prod.snd
      = .ok ([clipA] ++ clipB :: [clipC])) ∧
    (((_trim_end_redo ⟨clipB, 1, 2, true⟩ ([clipA] ++ clipB :: [clipC])).bind
        (fun p => _trim_end_undo p.1 p.2)).map Prod.snd
      = .ok ([clipA] ++ clipB :: [clipC])) ∧
    (((_consolidate_selected_blanks_redo ⟨1, []⟩
        ([clipA] ++ [mkBlank 2, mkBlank 3] ++ clipB :: [])).bind
        (fun p => _consolidate_selected_blanks_undo p.1 p.2)).map Prod.snd
      = .ok ([clipA] ++ [mkBlank 2, mkBlank 3] ++ clipB :: [])) :=
  ⟨catalog_undo_redo_roundtrip.1 ⟨clipB, 10, 12⟩ [clipA],
   catalog_undo_redo_roundtrip.2.1 ⟨clipB, 1, 10, 12⟩ [clipA, clipC]
     (by decide),
   catalog_undo_redo_roundtrip.2.2.1 ⟨0, 1, []⟩ [clipA, clipB, clipC]
     (by decide) (by decide),
   catalog_undo_redo_roundtrip.2.2.2.1 ⟨0, 1, []⟩ [clipA, clipC]
     (by decide) (by decide),
   catalog_undo_redo_roundtrip.2.2.2.2.1 ⟨1, 11, clipB, none⟩ [clipA] [clipC]
     (by decide),
   catalog_undo_redo_roundtrip.2.2.2.2.2.1
     ⟨1, clipA, clipB, 2, false, 0, true, 0, 0⟩ [] [clipC] (by decide)
     (by decide),
   catalog_undo_redo_roundtrip.2.2.2.2.2.2.1
     ⟨1, clipA, mkBlank 3, 1, true, 0, true, 0, 0⟩ [] [clipC] (by decide)
     (by decide) (by decide) (by decide),
   catalog_undo_redo_roundtrip.2.2.2.2.2.2.2.1
     ⟨1, mkBlank 3, clipB, 1, true, 0, true, 0, 0⟩ [] [clipC] (by decide)
     (by decide) (by decide) (by decide),
   catalog_undo_redo_roundtrip.2.2.2.2.2.2.2.2.1 ⟨3, 0, 0, [], 0⟩
     [clipA, clipB, clipC] (by decide) (by decide) (by decide) (by decide),
   catalog_undo_redo_roundtrip.2.2.2.2.2.2.2.2.2.1 ⟨clipB, 1, 2, true⟩
     [clipA] [clipC] (by decide),
   catalog_undo_redo_roundtrip.2.2.2.2.2.2.2.2.2.2.1 ⟨clipB, 1, 2, true⟩
     [clipA] [clipC] (by decide),
   catalog_undo_redo_roundtrip.2.2.2.2.2.2.2.2.2.2.2 ⟨1, []⟩ [clipA]
     [mkBlank 2, mkBlank 3] [] clipB (by decide) (by decide) (by decide)
     (by decide)⟩

/-- Claim C5: the two-roll trim's forward run shifts the shared boundary by
`delta` (shrinking one side and growing the other, substituting a fresh
blank when the non-edited side is a blank), its backward run restores both
segments' original bounds exactly, and the external edit-done callback
fires exactly once over the action's lifetime — on the first forward run,
never on undo or on replayed redo. -/
theorem tworoll_trim_spec_claim :
    (∀ (d : TworollData) (l1 l2 : List Clip), d.index = l1.length + 1 →
      d.non_edit_side_blank = false →
      _tworoll_trim_redo d (l1 ++ d.from_clip :: d.to_clip :: l2) =
        .ok ({ d with
               from_clip := { d.from_clip with
                              clip_out := d.from_clip.clip_out + d.delta },
               to_clip := { d.to_clip with
                            clip_in := d.to_clip.clip_in + d.delta },
               first_do := false },
             l1 ++ { d.from_clip with clip_out := d.from_clip.clip_out + d.delta } ::
               { d.to_clip with clip_in := d.to_clip.clip_in + d.delta } :: l2,
             d.first_do)) ∧
    (∀ (d : TworollData) (l1 l2 : List Clip), d.index = l1.length + 1 →
      d.non_edit_side_blank = true → d.to_clip.is_blanck_clip = true →
      _tworoll_trim_redo d (l1 ++ d.from_clip :: d.to_clip :: l2) =
        .ok ({ d with
               from_clip := { d.from_clip with
                              clip_out := d.from_clip.clip_out + d.delta },
               to_length := _clip_length d.to_clip,
               first_do := false },
             l1 ++ { d.from_clip with clip_out := d.from_clip.clip_out + d.delta } ::
               mkBlank (_clip_length d.to_clip - d.delta) :: l2,
             d.first_do)) ∧
    (∀ (d : TworollData) (l1 l2 : List Clip), d.index = l1.length + 1 →
      d.non_edit_side_blank = true → d.to_clip.is_blanck_clip = false →
      _tworoll_trim_redo d (l1 ++ d.from_clip :: d.to_clip :: l2) =
        .ok ({ d with
               to_clip := { d.to_clip with
                            clip_in := d.to_clip.clip_in + d.delta },
               from_length := _clip_length d.from_clip,
               first_do := false },
             l1 ++ mkBlank (_clip_length d.from_clip + d.delta) ::
               { d.to_clip with clip_in := d.to_clip.clip_in + d.delta } :: l2,
             d.first_do)) ∧
    (∀ (d : TworollData) (l1 l2 : List Clip), d.index = l1.length + 1 →
      d.non_edit_side_blank = false →
      ((_tworoll_trim_redo d (l1 ++ d.from_clip :: d.to_clip :: l2)).bind
        (fun p => _tworoll_trim_undo p.1 p.2.1)).map (fun p => p.2.1)
        = .ok (l1 ++ d.from_clip :: d.to_clip :: l2)) ∧
    (∀ (d : TworollData) (l1 l2 : List Clip), d.index = l1.length + 1 →
      d.non_edit_side_blank = true → d.to_clip.is_blanck_clip = true →
      d.to_clip = mkBlank (_clip_length d.to_clip) →
      ((_tworoll_trim_redo d (l1 ++ d.from_clip :: d.to_clip :: l2)).bind
        (fun p => _tworoll_trim_undo p.1 p.2.1)).map (fun p => p.2.1)
        = .ok (l1 ++ d.from_clip :: d.to_clip :: l2)) ∧
    (∀ (d : TworollData) (l1 l2 : List Clip), d.index = l1.length + 1 →
      d.non_edit_side_blank = true → d.to_clip.is_blanck_clip = false →
      d.from_clip = mkBlank (_clip_length d.from_clip) →
      ((_tworoll_trim_redo d (l1 ++ d.from_clip :: d.to_clip :: l2)).bind
        (fun p => _tworoll_trim_undo p.1 p.2.1)).map (fun p => p.2.1)
        = .ok (l1 ++ d.from_clip :: d.to_clip :: l2)) ∧
    (∀ (d : TworollData) (t : List Clip) (ops : List HistOp)
        (r : TworollData × List Clip × Bool), d.first_do = true →
      _tworoll_trim_redo d t = .ok r → tworollLifetimeFires d t ops = 1) :=
  ⟨tworoll_redo_spec_nonblank, tworoll_redo_spec_toblank,
   tworoll_redo_spec_fromblank, tworoll_roundtrip_nonblank,
   tworoll_roundtrip_toblank, tworoll_roundtrip_fromblank,
   tworoll_callback_once⟩

/-- Witness for C5: the three forward-run shapes, the three round trips and
the callback count, each on a concrete two-segment track. -/
theorem tworoll_trim_spec_claim_witness :
    (_tworoll_trim_redo ⟨1, clipA, clipB, 2, false, 0, true, 0, 0⟩
        ([] ++ clipA :: clipB :: []) =
      .ok (⟨1, ⟨0, 6, false, 1, [], none⟩, ⟨12, 12, false, 2, [], none⟩,
            2, false, 0, false, 0, 0⟩,
           [⟨0, 6, false, 1, [], none⟩, ⟨12, 12, false, 2, [], none⟩],
           true)) ∧
    (_tworoll_trim_redo ⟨1, clipA, mkBlank 3, 1, true, 0, true, 0, 0⟩
        ([] ++ clipA :: mkBlank 3 :: []) =
      .ok (⟨1, ⟨0, 5, false, 1, [], none⟩, mkBlank 3, 1, true, 0, false, 3, 0⟩,
           [⟨0, 5, false, 1, [], none⟩, ⟨0, 1, true, 0, [], none⟩],
           true)) ∧
    (_tworoll_trim_redo ⟨1, mkBlank 3, clipB, 1, true, 0, true, 0, 0⟩
        ([] ++ mkBlank 3 :: clipB :: []) =
      .ok (⟨1, mkBlank 3, ⟨11, 12, false, 2, [], none⟩, 1, true, 0, false, 0, 3⟩,
           [⟨0, 3, true, 0, [], none⟩, ⟨11, 12, false, 2, [], none⟩],
           true)) ∧
    (((_tworoll_trim_redo ⟨1, clipA, clipB, 2, false, 0, true, 0, 0⟩
        ([] ++ clipA :: clipB :: [])).bind
        (fun p => _tworoll_trim_undo p.1 p.2.1)).map (fun p => p.2.1)
      = .ok ([] ++ clipA :: clipB :: [])) ∧
    (((_tworoll_trim_redo ⟨1, clipA, mkBlank 3, 1, true, 0, true, 0, 0⟩
        ([] ++ clipA :: mkBlank 3 :: [])).bind
        (fun p => _tworoll_trim_undo p.1 p.2.1)).map (fun p => p.2.1)
      = .ok ([] ++ clipA :: mkBlank 3 :: [])) ∧
    (((_tworoll_trim_redo ⟨1, mkBlank 3, clipB, 1, true, 0, true, 0, 0⟩
        ([] ++ mkBlank 3 :: clipB :: [])).bind
        (fun p => _tworoll_trim_undo p.1 p.2.1)).map (fun p => p.2.1)
      = .ok ([] ++ mkBlank 3 :: clipB :: [])) ∧
    (tworollLifetimeFires ⟨1, clipA, clipB, 2, false, 0, true, 0, 0⟩
        [clipA, clipB] [HistOp.undoOp, HistOp.redoOp] = 1) :=
  ⟨(tworoll_trim_spec_claim.1 ⟨1, clipA, clipB, 2, false, 0, true, 0, 0⟩
      [] [] (by decide) (by decide)).trans (by decide),
   (tworoll_trim_spec_claim.2.1 ⟨1, clipA, mkBlank 3, 1, true, 0, true, 0, 0⟩
      [] [] (by decide) (by decide) (by decide)).trans (by decide),
   (tworoll_trim_spec_claim.2.2.1 ⟨1, mkBlank 3, clipB, 1, true, 0, true, 0, 0⟩
      [] [] (by decide) (by decide) (by decide)).trans (by decide),
   tworoll_trim_spec_claim.2.2.2.1 ⟨1, clipA, clipB, 2, false, 0, true, 0, 0⟩
      [] [] (by decide) (by decide),
   tworoll_trim_spec_claim.2.2.2.2.1
      ⟨1, clipA, mkBlank 3, 1, true, 0, true, 0, 0⟩ [] [] (by decide)
      (by decide) (by decide) (by decide),
   tworoll_trim_spec_claim.2.2.2.2.2.1
      ⟨1, mkBlank 3, clipB, 1, true, 0, true, 0, 0⟩ [] [] (by decide)
      (by decide) (by decide) (by decide),
   tworoll_trim_spec_claim.2.2.2.2.2.2
      ⟨1, clipA, clipB, 2, false, 0, true, 0, 0⟩ [clipA, clipB]
      [HistOp.undoOp, HistOp.redoOp]
      (⟨1, ⟨0, 6, false, 1, [], none⟩, ⟨12, 12, false, 2, [], none⟩,
        2, false, 0, false, 0, 0⟩,
       [⟨0, 6, false, 1, [], none⟩, ⟨12, 12, false, 2, [], none⟩], true)
      (by decide) (by decide)⟩

/-- Claim C6: lift-multiple's forward run removes the segments at indices
`[from_index, to_index]` (saving them in order) and replaces them with one
Blank whose length is the sum of the removed segments' lengths; the
backward run removes that Blank and re-inserts the original segments, so
the round trip is the identity on the track. -/
theorem lift_multiple_spec_claim :
    (∀ (d : LiftMultipleData) (t : List Clip),
      d.from_index ≤ d.to_index → d.to_index < t.length →
      _lift_multiple_redo d t =
        .ok ({ d with
               clips := (t.drop d.from_index).take
                 (d.to_index + 1 - d.from_index) },
             t.take d.from_index ++
               mkBlank (((t.drop d.from_index).take
                 (d.to_index + 1 - d.from_index)).map _clip_length).sum ::
               t.drop (d.from_index + (d.to_index + 1 - d.from_index)))) ∧
    (∀ (d : LiftMultipleData) (t : List Clip),
      d.from_index ≤ d.to_index → d.to_index < t.length →
      ((_lift_multiple_redo d t).bind
        (fun p => _lift_multiple_undo p.1 p.2)).map Prod.snd = .ok t) :=
  ⟨lift_multiple_redo_spec, lift_multiple_roundtrip⟩

/-- Witness for C6: lifting the two clips of lengths 5 and 7 replaces them
with one Blank of length 12, and undo restores both clips in order. -/
theorem lift_multiple_spec_claim_witness :
    (_lift_multiple_redo ⟨0, 1, []⟩ [clipA, clipC] =
      .ok (⟨0, 1, [clipA, clipC]⟩, [mkBlank 12])) ∧
    (((_lift_multiple_redo ⟨0, 1, []⟩ [clipA, clipC]).bind
        (fun p => _lift_multiple_undo p.1 p.2)).map Prod.snd
      = .ok [clipA, clipC]) :=
  ⟨(lift_multiple_spec_claim.1 ⟨0, 1, []⟩ [clipA, clipC]
      (by decide) (by decide)).trans (by decide),
   lift_multiple_spec_claim.2 ⟨0, 1, []⟩ [clipA, clipC]
      (by decide) (by decide)⟩

/-- Claim C7 (amended): provided the run of consecutive Blanks starting at
`index` is followed by a non-Blank segment, `_remove_consecutive_blanks`
removes exactly those Blanks, returns their lengths in removal order, and
re-inserting Blanks of the returned lengths one after another at the same
index reproduces the original track; when the run extends to the end of
the track the function instead raises `IndexError` (see the
counterexample theorem). -/
theorem remove_consecutive_blanks_spec_claim :
    ∀ (l1 blanks l2 : List Clip) (c : Clip) (index : Nat),
      index = l1.length →
      (∀ b ∈ blanks, b.is_blanck_clip = true) →
      (∀ b ∈ blanks, b = mkBlank (_clip_length b)) →
      c.is_blanck_clip = false →
      _remove_consecutive_blanks (l1 ++ blanks ++ c :: l2) index
        = .ok (blanks.map _clip_length, l1 ++ c :: l2) ∧
      _insert_blank_loop (l1 ++ c :: l2) index (blanks.map _clip_length)
        = l1 ++ blanks ++ c :: l2 :=
  fun l1 blanks l2 c index hi hb hcan hc =>
    ⟨remove_consecutive_blanks_spec l1 blanks l2 c index hi hb hc,
     reinsert_blanks l1 (c :: l2) blanks index hi hcan⟩

/-- Witness for C7 (amended): removing the run `[Blank 2, Blank 3]` at
index 1 returns `[2, 3]` and re-inserting those lengths at index 1 restores
the original track. -/
theorem remove_consecutive_blanks_spec_claim_witness :
    (_remove_consecutive_blanks ([clipA] ++ [mkBlank 2, mkBlank 3] ++ clipB :: []) 1
      = .ok ([mkBlank 2, mkBlank 3].map _clip_length, [clipA] ++ clipB :: [])) ∧
    (_insert_blank_loop ([clipA] ++ clipB :: []) 1
        ([mkBlank 2, mkBlank 3].map _clip_length)
      = [clipA] ++ [mkBlank 2, mkBlank 3] ++ clipB :: []) :=
  remove_consecutive_blanks_spec_claim [clipA] [mkBlank 2, mkBlank 3] []
    clipB 1 (by decide) (by decide) (by decide) (by decide)

/-- Claim C10: insert-move's forward run inserts the moved block at
`insert_index - (number of moved clips)` when `insert_index` lies strictly
after `selected_range_out` (the index is adjusted for the removal of the
selected range), and at `insert_index` unadjusted otherwise; in both cases
the moved clips are the contiguous slice of the selected range, kept in
their original relative order. -/
theorem insert_move_index_adjustment :
    ∀ (d : InsertMoveData) (t : List Clip),
      d.selected_range_in ≤ d.selected_range_out →
      d.selected_range_out < t.length → d.insert_index ≤ t.length →
      (d.insert_index ≤ d.selected_range_in ∨
        d.selected_range_out < d.insert_index) →
      (d.selected_range_out < d.insert_index →
        _insert_move_redo d t =
          .ok ({ d with
                 clips := sliceClips t d.selected_range_in
                   (d.selected_range_out - d.selected_range_in + 1),
                 real_insert_index := d.insert_index -
                   (d.selected_range_out - d.selected_range_in + 1) },
               (removeSlice t d.selected_range_in
                   (d.selected_range_out - d.selected_range_in + 1)).take
                 (d.insert_index -
                   (d.selected_range_out - d.selected_range_in + 1)) ++
               sliceClips t d.selected_range_in
                 (d.selected_range_out - d.selected_range_in + 1) ++
               (removeSlice t d.selected_range_in
                   (d.selected_range_out - d.selected_range_in + 1)).drop
                 (d.insert_index -
                   (d.selected_range_out - d.selected_range_in + 1)))) ∧
      (d.insert_index ≤ d.selected_range_out →
        _insert_move_redo d t =
          .ok ({ d with
                 clips := sliceClips t d.selected_range_in
                   (d.selected_range_out - d.selected_range_in + 1),
                 real_insert_index := d.insert_index },
               (removeSlice t d.selected_range_in
                   (d.selected_range_out - d.selected_range_in + 1)).take
                 d.insert_index ++
               sliceClips t d.selected_range_in
                 (d.selected_range_out - d.selected_range_in + 1) ++
               (removeSlice t d.selected_range_in
                   (d.selected_range_out - d.selected_range_in + 1)).drop
                 d.insert_index)) := by
  intro d t h1 h2 h3 h4
  have hspec := insert_move_redo_spec d t h1 h2 h3 h4
  constructor
  · intro h5
    have hif : (if d.insert_index > d.selected_range_out then
        d.insert_index - (d.selected_range_out - d.selected_range_in + 1)
        else d.insert_index)
        = d.insert_index - (d.selected_range_out - d.selected_range_in + 1) :=
      if_pos h5
    rw [hif] at hspec
    exact hspec
  · intro h5
    have hif : (if d.insert_index > d.selected_range_out then
        d.insert_index - (d.selected_range_out - d.selected_range_in + 1)
        else d.insert_index) = d.insert_index :=
      if_neg (by omega)
    rw [hif] at hspec
    exact hspec

/-- Witness for C10: moving the first clip of a three-clip track to
insert index 3 (after the selection) lands it at adjusted index 2; moving
the clips at indices 1-2 to insert index 0 (before the selection) lands
them at index 0 unadjusted. -/
theorem insert_move_index_adjustment_witness :
    (_insert_move_redo ⟨3, 0, 0, [], 0⟩ [clipA, clipB, clipC] =
      .ok (⟨3, 0, 0, [clipA], 2⟩, [clipB, clipC, clipA])) ∧
    (_insert_move_redo ⟨0, 1, 2, [], 0⟩ [clipA, clipB, clipC] =
      .ok (⟨0, 1, 2, [clipB, clipC], 0⟩, [clipB, clipC, clipA])) :=
  ⟨((insert_move_index_adjustment ⟨3, 0, 0, [], 0⟩ [clipA, clipB, clipC]
      (by decide) (by decide) (by decide) (by decide)).1
      (by decide)).trans (by decide),
   ((insert_move_index_adjustment ⟨0, 1, 2, [], 0⟩ [clipA, clipB, clipC]
      (by decide) (by decide) (by decide) (by decide)).2
      (by decide)).trans (by decide)⟩

/-- Claim C2: every sequence of atomic insert/remove steps keeps the
Python-side clip list and the engine-side mirror identical index-for-index,
and therefore the sum of the Python-side segment lengths equals the
engine-reported track length; segment positions are contiguous (each
segment starts where the previous one ends) and, under the positive-length
invariant, strictly increasing (non-overlapping). -/
theorem mirrored_track_invariants :
    (∀ (steps : List AtomicStep) (mt mt2 : MirroredTrack),
      mt.clips = mt.mlt → applySteps steps mt = .ok mt2 →
      mt2.clips = mt2.mlt ∧
      (mt2.clips.map _clip_length).sum = get_length mt2.mlt) ∧
    (∀ (t : List Clip) (i : Nat) (c : Clip) (l2 : List Clip),
      t.drop i = c :: l2 →
      clip_start t (i + 1) = clip_start t i + _clip_length c) ∧
    (∀ t : List Clip, (∀ c ∈ t, 1 ≤ _clip_length c) →
      ∀ i j, i < j → j ≤ t.length → clip_start t i < clip_start t j) :=
  ⟨fun steps mt mt2 hm h =>
    ⟨applySteps_preserves steps mt mt2 hm h,
     mirrored_sum_length mt2 (applySteps_preserves steps mt mt2 hm h)⟩,
   clip_start_succ_of_drop,
   clip_start_strict_mono⟩

/-- Witness for C2: a concrete step sequence (insert a clip, insert a
blank, remove the clip) keeps the two representations equal, and the
contiguity/monotonicity facts hold on a concrete two-clip track. -/
theorem mirrored_track_invariants_witness :
    ((⟨[mkBlank 3], [mkBlank 3]⟩ : MirroredTrack).clips
        = (⟨[mkBlank 3], [mkBlank 3]⟩ : MirroredTrack).mlt ∧
      ((⟨[mkBlank 3], [mkBlank 3]⟩ : MirroredTrack).clips.map _clip_length).sum
        = get_length (⟨[mkBlank 3], [mkBlank 3]⟩ : MirroredTrack).mlt) ∧
    (clip_start [clipA, clipB] (1 + 1)
      = clip_start [clipA, clipB] 1 + _clip_length clipB) ∧
    (clip_start [clipA, clipB] 0 < clip_start [clipA, clipB] 1) :=
  ⟨mirrored_track_invariants.1
      [AtomicStep.insertC clipA 0 0 4, AtomicStep.insertB 1 3,
       AtomicStep.removeC 0] ⟨[], []⟩ ⟨[mkBlank 3], [mkBlank 3]⟩ rfl
      (by decide),
   mirrored_track_invariants.2.1 [clipA, clipB] 1 clipB [] (by decide),
   mirrored_track_invariants.2.2 [clipA, clipB] (by decide) 0 1
      (by decide) (by decide)⟩

/-- Claim C3: `_overwrite_cut_track` is a no-op returning the `(-1, -1)`
sentinel when the frame coincides with an existing segment boundary;
otherwise it splits the segment containing the frame into two (segment
count grows by one, the two pieces' lengths sum to the original's) and
returns the pre-split segment's original `(clip_in, clip_out)` bounds. -/
theorem cut_track_at_frame_spec :
    ∀ (t : List Clip) (frame : Int), validTrack t → 0 ≤ frame →
      frame < get_length t →
      (IsBoundary t frame →
        _overwrite_cut_track t frame = .ok (t, (-1, -1))) ∧
      (¬ IsBoundary t frame →
        ∃ c l2 c1 c2, t.drop (get_clip_index_at t frame) = c :: l2 ∧
          _overwrite_cut_track t frame =
            .ok (t.take (get_clip_index_at t frame) ++ c1 :: c2 :: l2,
                 (c.clip_in, c.clip_out)) ∧
          _clip_length c1 + _clip_length c2 = _clip_length c ∧
          (t.take (get_clip_index_at t frame) ++ c1 :: c2 :: l2).length
            = t.length + 1) := by
  intro t frame hv h0 hl
  refine ⟨fun hb => overwrite_cut_track_noop t frame hv h0 hl hb, fun hnb => ?_⟩
  obtain ⟨c, l2, c1, c2, hd, heq, hlen⟩ :=
    overwrite_cut_track_split t frame hv h0 hl hnb
  refine ⟨c, l2, c1, c2, hd, heq, hlen, ?_⟩
  have hidx : get_clip_index_at t frame < t.length :=
    lt_length_of_drop_cons t _ c l2 hd
  have h1 : (t.drop (get_clip_index_at t frame)).length = l2.length + 1 := by
    rw [hd]
    simp
  rw [List.length_drop] at h1
  simp only [List.length_append, List.length_cons,
    take_length_of_le t _ (le_of_lt hidx)]
  omega

/-- Witness for C3: cutting the 10/20/15 track at the boundary frame 10 is
a sentinel no-op; cutting at frame 15 (inside the second clip) splits it
and returns its original bounds. -/
theorem cut_track_at_frame_spec_witness :
    (_overwrite_cut_track [clipT1, clipT2, clipT3] 10
      = .ok ([clipT1, clipT2, clipT3], (-1, -1))) ∧
    (∃ c l2 c1 c2,
      ([clipT1, clipT2, clipT3] : List Clip).drop
          (get_clip_index_at [clipT1, clipT2, clipT3] 15) = c :: l2 ∧
      _overwrite_cut_track [clipT1, clipT2, clipT3] 15 =
        .ok (([clipT1, clipT2, clipT3] : List Clip).take
            (get_clip_index_at [clipT1, clipT2, clipT3] 15) ++ c1 :: c2 :: l2,
             (c.clip_in, c.clip_out)) ∧
      _clip_length c1 + _clip_length c2 = _clip_length c ∧
      (([clipT1, clipT2, clipT3] : List Clip).take
          (get_clip_index_at [clipT1, clipT2, clipT3] 15) ++
            c1 :: c2 :: l2).length
        = ([clipT1, clipT2, clipT3] : List Clip).length + 1) :=
  ⟨(cut_track_at_frame_spec [clipT1, clipT2, clipT3] 10 (by decide)
      (by decide) (by decide)).1 (by decide),
   (cut_track_at_frame_spec [clipT1, clipT2, clipT3] 15 (by decide)
      (by decide) (by decide)).2 (by decide)⟩

/-- Claim C8: in a resynchronization run, a tuple whose offset equals the
clip's recorded `sync_data.pos_offset` is skipped (no action generated, the
timeline untouched at that step; a run where every tuple is in sync
generates nothing and leaves every track unchanged); a tuple whose offset
differs generates an overwrite-move whose destination range is the clip's
current start shifted by `-(pos_offset - sync_data.pos_offset)` and of the
clip's length, executed immediately; the generated list is memoized so a
later redo replays exactly those actions independently of the resync data;
and undo applies the actions' backward functions in strict reverse order of
generation. -/
theorem resync_all_spec_claim :
    (∀ (tu : ResyncTuple) (rest : List ResyncTuple) (σ : Timeline)
        (sd : SyncData), tu.clip.sync_data = some sd →
      tu.pos_offset = sd.pos_offset →
      _create_and_do_sync_actions_list (tu :: rest) σ =
        _create_and_do_sync_actions_list rest σ) ∧
    (∀ (data : List ResyncTuple) (σ : Timeline),
      (∀ tu ∈ data, ∃ sd, tu.clip.sync_data = some sd ∧
          tu.pos_offset = sd.pos_offset) →
      _create_and_do_sync_actions_list data σ = .ok ([], σ)) ∧
    (∀ (tu : ResyncTuple) (rest : List ResyncTuple) (σ : Timeline)
        (sd : SyncData), tu.clip.sync_data = some sd →
      tu.pos_offset ≠ sd.pos_offset →
      _create_and_do_sync_actions_list (tu :: rest) σ = (do
        let (a2, t2) ← _overwrite_move_redo
          { track := tu.track,
            over_in := clip_start (σ tu.track) tu.index -
              (tu.pos_offset - sd.pos_offset),
            over_out := clip_start (σ tu.track) tu.index -
              (tu.pos_offset - sd.pos_offset) +
              (tu.clip.clip_out - tu.clip.clip_in + 1),
            selected_range_in := tu.index,
            selected_range_out := tu.index } (σ tu.track)
        let (acts, σ2) ←
          _create_and_do_sync_actions_list rest (updateTrack σ tu.track t2)
        Except.ok (a2 :: acts, σ2))) ∧
    (∀ (d : ResyncAllData) (l : List OverwriteMoveData),
      d.actions = some l → ∀ (σ : Timeline) (dataA dataB : List ResyncTuple),
      _resync_all_redo d dataA σ = _resync_all_redo d dataB σ ∧
      _resync_all_redo d dataA σ = (do
        let (as2, σ2) ← _replay_actions l σ
        Except.ok ({ actions := some as2 }, σ2))) ∧
    (∀ (d : ResyncAllData) (l : List OverwriteMoveData),
      d.actions = some l → ∀ σ : Timeline,
      _resync_all_undo d σ = (do
        let (as2, σ2) ← undoAllRev l σ
        Except.ok ({ actions := some as2 }, σ2))) :=
  ⟨sync_actions_skip, sync_actions_all_skip, sync_actions_generate,
   fun d l hd σ dataA dataB => resync_redo_memoized d l hd σ dataA dataB,
   fun d l hd σ => resync_undo_reverse_order d l hd σ⟩

/-- Witness for C8: a tuple already at its recorded offset generates
nothing; an all-in-sync run returns the timeline unchanged; an out-of-sync
tuple generates the shifted overwrite-move; a memoized action list makes
redo independent of the resync data; undo unwinds the memoized list. -/
theorem resync_all_spec_claim_witness :
    (_create_and_do_sync_actions_list [⟨clipS, 0, 0, 5⟩] sigma0 =
      _create_and_do_sync_actions_list [] sigma0) ∧
    (_create_and_do_sync_actions_list [⟨clipS, 0, 0, 5⟩] sigma0
      = .ok ([], sigma0)) ∧
    (_create_and_do_sync_actions_list [⟨clipS, 0, 0, 7⟩] sigma0 = (do
      let (a2, t2) ← _overwrite_move_redo
        { track := (⟨clipS, 0, 0, 7⟩ : ResyncTuple).track,
          over_in := clip_start (sigma0 0) 0 - (7 - 5),
          over_out := clip_start (sigma0 0) 0 - (7 - 5) +
            (clipS.clip_out - clipS.clip_in + 1),
          selected_range_in := 0,
          selected_range_out := 0 } (sigma0 0)
      let (acts, σ2) ←
        _create_and_do_sync_actions_list [] (updateTrack sigma0 0 t2)
      Except.ok (a2 :: acts, σ2))) ∧
    (_resync_all_redo ⟨some []⟩ [] sigma0
      = _resync_all_redo ⟨some []⟩ [⟨clipS, 0, 0, 7⟩] sigma0) ∧
    (_resync_all_undo ⟨some []⟩ sigma0 = (do
      let (as2, σ2) ← undoAllRev [] sigma0
      Except.ok ({ actions := some as2 }, σ2))) :=
  ⟨resync_all_spec_claim.1 ⟨clipS, 0, 0, 5⟩ [] sigma0 { pos_offset := 5 }
      rfl rfl,
   resync_all_spec_claim.2.1 [⟨clipS, 0, 0, 5⟩] sigma0
      (by
        intro tu htu
        simp only [List.mem_singleton] at htu
        subst htu
        exact ⟨{ pos_offset := 5 }, rfl, rfl⟩),
   resync_all_spec_claim.2.2.1 ⟨clipS, 0, 0, 7⟩ [] sigma0 { pos_offset := 5 }
      rfl (by decide),
   (resync_all_spec_claim.2.2.2.1 ⟨some []⟩ [] rfl sigma0 []
      [⟨clipS, 0, 0, 7⟩]).1,
   resync_all_spec_claim.2.2.2.2 ⟨some []⟩ [] rfl sigma0⟩
